import Mathlib

/-!
Verification of the compliSense Compliance Analysis Pipeline.

This file is a shallow embedding, in Lean 4, of the core of the repository:

* `app/schemas.py`   — the `ComplianceResult` Pydantic model and its validators;
* `app/rag_engine.py` — `ComplianceRAG.analyze_clause`,
  `_apply_rule_based_checks` and `_extract_and_validate_json`;
* `app/embeddings.py` — `RegulationVectorStore.load_regulations` and `.search`.

Modelling conventions:

* Python strings are `String`; Python floats are `ℚ` (every numeric literal in
  the claims is an exact decimal, and `max` / comparisons are exact on them).
* Fallible Python code returns `Except`; a Python exception that a claim cares
  about is a `PyErr` value.  Exception message texts are approximated — no
  claim inspects them beyond non-emptiness of a known prefix.
* `json.loads` is modelled by a recursive-descent parser for the JSON subset
  actually exercised by the pipeline: objects, arrays, strings with the full
  escape repertoire (the single-character escapes and `\uXXXX`, surrogate
  pairs combined; lone surrogates, which `json.dumps` never emits for a
  well-formed string, are parse errors in the model), decimal numbers without
  exponents, `true`/`false`/`null`.  Python-specific extras (exponents,
  `NaN`) are parse errors in the model; every such divergence lands in a
  fallback path that the claims treat identically.  The string escaping of
  `json.dumps` (default `ensure_ascii=True`) is modelled by `jsonEscape`.
* The embedding provider (`SentenceTransformer.encode`) is an abstract function
  `String → List ℚ` carried inside the store, as in the source, where it is a
  field that `analyze_clause` deletes after the first retrieval.
* faiss `IndexFlatL2.search` is external library code: it is modelled from its
  documented contract — exact L2 k-nearest search, results ordered by
  increasing distance with ties by insertion id, missing neighbours padded
  with id `-1` when `k` exceeds the number of stored vectors.
-/

/-! ## Basic Python string helpers -/

/-- The `\x7b` character, written via its code point. -/
def lbrace : Char := Char.ofNat 123

/-- The `\x7d` character, written via its code point. -/
def rbrace : Char := Char.ofNat 125

/-- Characters removed by Python `str.strip()` (ASCII fragment). -/
def isPySpace (c : Char) : Bool :=
  c = ' ' || c = '\t' || c = '\n' || c = '\r' || c = Char.ofNat 11 || c = Char.ofNat 12

/-- Whitespace accepted between JSON tokens by `json.loads`. -/
def isJsonWS (c : Char) : Bool :=
  c = ' ' || c = '\t' || c = '\n' || c = '\r'

/-- `str.strip()` on a character list. -/
def pyStripChars (l : List Char) : List Char :=
  ((l.dropWhile isPySpace).reverse.dropWhile isPySpace).reverse

/-- Python `str.strip()`. -/
def pyStrip (s : String) : String := ⟨pyStripChars s.data⟩

/-- Python `str.lower()` (ASCII; every keyword in the pipeline is ASCII). -/
def pyLower (s : String) : String := ⟨s.data.map Char.toLower⟩

/-- `pfxMatches n l` is true when `n` is a leading segment of `l`. -/
def pfxMatches : List Char → List Char → Bool
  | [], _ => true
  | _ :: _, [] => false
  | a :: as, b :: bs => a = b && pfxMatches as bs

/-- Python `needle in hay` on character lists: substring containment. -/
def listContains (hay needle : List Char) : Bool :=
  match hay with
  | [] => pfxMatches needle []
  | _ :: rest => pfxMatches needle hay || listContains rest needle

/-- Python `sub in hay` for strings. -/
def strContains (hay sub : String) : Bool := listContains hay.data sub.data

/-! ## `ComplianceResult` (`app/schemas.py`)

```python
class ComplianceResult(BaseModel):
    compliance_status: Literal["Compliant", "Non-Compliant", "Partially Compliant", "Unknown"]
    reason: str = Field(min_length=5)
    risk_level: Literal["Low", "Medium", "High", "Unknown"]
    confidence_score: float = Field(ge=0.0, le=1.0)

    @validator("reason")
    def reason_not_empty(cls, v):
        if not v.strip(): raise ValueError("Reason cannot be empty")
        return v
```
-/

structure ComplianceResult where
  compliance_status : String
  reason : String
  risk_level : String
  confidence_score : ℚ
deriving DecidableEq

def canonicalStatuses : List String :=
  ["Compliant", "Non-Compliant", "Partially Compliant", "Unknown"]

def canonicalRisks : List String := ["Low", "Medium", "High", "Unknown"]

/-- `not v.strip()` is false iff some character is not whitespace. -/
def hasNonWS (s : String) : Bool := s.data.any (fun c => !(isPySpace c))

/-- The four field constraints that `ComplianceResult` construction enforces. -/
def validResult (r : ComplianceResult) : Bool :=
  canonicalStatuses.contains r.compliance_status &&
  canonicalRisks.contains r.risk_level &&
  decide (5 ≤ r.reason.length) &&
  hasNonWS r.reason &&
  decide ((0 : ℚ) ≤ r.confidence_score) &&
  decide (r.confidence_score ≤ 1)

/-! ## Rule Override Engine (`ComplianceRAG._apply_rule_based_checks`) -/

def indefiniteKeywords : List String :=
  ["indefinitely", "indefinite", "forever", "permanently", "no retention limit",
   "retain all data", "keep all data", "without time limit", "no expiration",
   "never delete"]

def sharingKeywords : List String :=
  ["share with third parties without consent", "sell personal data",
   "transfer data without permission"]

def rightsViolations : List String :=
  ["users cannot delete their data", "no right to deletion",
   "data cannot be removed", "users cannot access their data"]

def reasonRetention : String :=
  "Indefinite data retention violates GDPR storage limitation principle (Article 5(1)(e))."

def reasonSharing : String :=
  "Sharing personal data without consent violates GDPR lawfulness principle (Article 6)."

def reasonRights : String :=
  "Denying data subject rights violates GDPR Articles 15-22 (right to access, deletion, etc.)."

/-- `any(keyword in clause_lower for keyword in indefinite_keywords)`. -/
def retentionMatch (clauseText : String) : Bool :=
  indefiniteKeywords.any (fun k => strContains (pyLower clauseText) k)

def sharingMatch (clauseText : String) : Bool :=
  sharingKeywords.any (fun k => strContains (pyLower clauseText) k)

def rightsMatch (clauseText : String) : Bool :=
  rightsViolations.any (fun k => strContains (pyLower clauseText) k)

/-- `ComplianceRAG._apply_rule_based_checks`: three sequential keyword rules,
each unconditionally overwriting status/risk/reason and raising the score to
at least 0.85. -/
def applyRuleBasedChecks (clauseText : String) (result : ComplianceResult) :
    ComplianceResult :=
  let r1 :=
    if retentionMatch clauseText then
      { result with
        compliance_status := "Non-Compliant"
        risk_level := "High"
        reason := reasonRetention
        confidence_score := max result.confidence_score 0.85 }
    else result
  let r2 :=
    if sharingMatch clauseText then
      { r1 with
        compliance_status := "Non-Compliant"
        risk_level := "High"
        reason := reasonSharing
        confidence_score := max r1.confidence_score 0.85 }
    else r1
  if rightsMatch clauseText then
    { r2 with
      compliance_status := "Non-Compliant"
      risk_level := "High"
      reason := reasonRights
      confidence_score := max r2.confidence_score 0.85 }
  else r2

/-! ## JSON values and Python dict operations -/

inductive JsonVal where
  | str : String → JsonVal
  | num : ℚ → JsonVal
  | boolean : Bool → JsonVal
  | null : JsonVal
  | obj : List (String × JsonVal) → JsonVal
  | arr : List JsonVal → JsonVal

/-- A parsed JSON object, i.e. a Python dict with string keys. -/
def Dict := List (String × JsonVal)

/-- `d[k]` lookup (keys are unique: the parser collapses duplicates). -/
def dictGet : Dict → String → Option JsonVal
  | [], _ => none
  | (k', v') :: rest, k => if k' = k then some v' else dictGet rest k

/-- `d[k] = v` assignment: replace in place, else append (Python dict). -/
def dictSet : Dict → String → JsonVal → Dict
  | [], k, v => [(k, v)]
  | (k', v') :: rest, k, v =>
    if k' = k then (k, v) :: rest else (k', v') :: dictSet rest k v

/-! ## The brace-balanced candidate finder

`re.search(r'\\x7b[^\x7b\x7d]*(?:\\x7b[^\x7b\x7d]*\\x7d[^\x7b\x7d]*)*\\x7d', text)`:
leftmost substring of the shape "open brace, one level of nested brace pairs,
close brace".  At a fixed start the match is unique: it ends at the first
closing brace at depth 1, and fails on a second-level opening brace or on
running out of input, after which the search restarts one character later. -/

/-- Scan the characters after the initial opening brace.  `inGroup` records
whether a one-level nested group is open.  Returns the matched characters up
to and including the final closing brace. -/
def scanBody : Bool → List Char → Option (List Char)
  | _, [] => none
  | inGroup, c :: rest =>
    if c = rbrace then
      if inGroup then (scanBody false rest).map (c :: ·) else some [c]
    else if c = lbrace then
      if inGroup then none else (scanBody true rest).map (c :: ·)
    else
      (scanBody inGroup rest).map (c :: ·)

/-- Leftmost match of the brace pattern, as a character list. -/
def findCandidateAux : List Char → Option (List Char)
  | [] => none
  | c :: rest =>
    if c = lbrace then
      match scanBody false rest with
      | some m => some (c :: m)
      | none => findCandidateAux rest
    else findCandidateAux rest

/-- `re.search(...)` followed by `.group()`: the candidate JSON substring. -/
def findJsonCandidate (s : String) : Option String :=
  (findCandidateAux s.data).map (fun l => ⟨l⟩)

/-! ## `json.loads` on the candidate (recursive-descent, fuelled) -/

/-- Value of one hex digit, as `json.loads` reads `\uXXXX` (both cases). -/
def hexVal (c : Char) : Option Nat :=
  if 48 ≤ c.toNat ∧ c.toNat ≤ 57 then some (c.toNat - 48)
  else if 97 ≤ c.toNat ∧ c.toNat ≤ 102 then some (c.toNat - 87)
  else if 65 ≤ c.toNat ∧ c.toNat ≤ 70 then some (c.toNat - 55)
  else none

/-- Value of four hex digits, if all four are hex digits. -/
def hexComb (a b c d : Char) : Option Nat :=
  match hexVal a, hexVal b, hexVal c, hexVal d with
  | some x, some y, some z, some w => some (4096 * x + 256 * y + 16 * z + w)
  | _, _, _, _ => none

/-- The single-character escapes of the JSON grammar. -/
def unescapeChar (c : Char) : Option Char :=
  if c = '"' then some '"'
  else if c = '\\' then some '\\'
  else if c = '/' then some '/'
  else if c = 'b' then some (Char.ofNat 8)
  else if c = 'f' then some (Char.ofNat 12)
  else if c = 'n' then some '\n'
  else if c = 'r' then some '\r'
  else if c = 't' then some '\t'
  else none

/-- Decode a `\uXXXX` escape whose four hex digits combined to `n`
(`rest` is the input after them): a high surrogate must be followed by a
`\uXXXX` low surrogate, the pair combining into one code point. -/
def escU (a b e3 d : Char) (rest : List Char) : Except String (Char × List Char) :=
  match hexComb a b e3 d with
  | none => .error "invalid unicode escape"
  | some n =>
    if 55296 ≤ n ∧ n ≤ 56319 then
      match rest with
      | x :: y :: a2 :: b2 :: e4 :: d2 :: rest2 =>
        if x = '\\' ∧ y = 'u' then
          match hexComb a2 b2 e4 d2 with
          | none => .error "invalid unicode escape"
          | some m =>
            if 56320 ≤ m ∧ m ≤ 57343 then
              .ok (Char.ofNat (65536 + (n - 55296) * 1024 + (m - 56320)), rest2)
            else .error "unpaired surrogate"
        else .error "unpaired surrogate"
      | _ => .error "unpaired surrogate"
    else if 56320 ≤ n ∧ n ≤ 57343 then .error "unpaired surrogate"
    else .ok (Char.ofNat n, rest)

/-- Decode one escape sequence; the input starts right after the backslash.
A lone surrogate — which `json.dumps` never emits for a well-formed string —
is a parse error in the model (CPython keeps it as a lone surrogate, a value
outside Lean's scalar `Char`). -/
def escScan (l : List Char) : Except String (Char × List Char) :=
  match l with
  | [] => .error "unterminated string"
  | e :: rest =>
    if e = 'u' then
      match rest with
      | a :: b :: e3 :: d :: rest2 => escU a b e3 d rest2
      | _ => .error "invalid unicode escape"
    else
      match unescapeChar e with
      | some u => .ok (u, rest)
      | none => .error "invalid escape"

/-- Read a string body up to the closing quote, decoding escape sequences as
`json.loads` does.  Raw control characters are rejected (`strict=True`, the
default).  Fuel bounds the number of scan steps; each step consumes at least
one input character, so the input length suffices. -/
def strScanF : Nat → List Char → Except String (List Char × List Char)
  | 0, _ => .error "unterminated string"
  | _ + 1, [] => .error "unterminated string"
  | f + 1, c :: rest =>
    if c = '"' then .ok ([], rest)
    else if c = '\\' then
      match escScan rest with
      | .ok (u, rest2) => (strScanF f rest2).map (fun p => (u :: p.1, p.2))
      | .error msg => .error msg
    else if c.toNat < 32 then .error "invalid control character"
    else (strScanF f rest).map (fun p => (c :: p.1, p.2))

/-- Read a string body up to the closing quote (see `strScanF`). -/
def strScan (l : List Char) : Except String (List Char × List Char) := strScanF l.length l

/-- Value of a list of decimal digit characters. -/
def digitsVal (l : List Char) : Nat :=
  l.foldl (fun n c => 10 * n + (c.toNat - 48)) 0

/-- Whitespace skipping between JSON tokens. -/
def skipJsonWS (l : List Char) : List Char := l.dropWhile isJsonWS

/-- Parse an optionally-signed decimal number `digits [ "." digits ]`. -/
def numScan (l : List Char) : Except String (ℚ × List Char) :=
  let (sgn, l') : ℚ × List Char :=
    match l with
    | c :: r => if c = '-' then (-1, r) else (1, l)
    | [] => (1, l)
  let ds := l'.takeWhile Char.isDigit
  let rest := l'.dropWhile Char.isDigit
  if ds.isEmpty then .error "expecting value"
  else
    match rest with
    | '.' :: r2 =>
      let fs := r2.takeWhile Char.isDigit
      let rest2 := r2.dropWhile Char.isDigit
      if fs.isEmpty then .error "expecting digits after decimal point"
      else .ok (sgn * ((digitsVal ds : ℚ) + (digitsVal fs : ℚ) / (10 : ℚ) ^ fs.length), rest2)
    | _ => .ok (sgn * (digitsVal ds : ℚ), rest)

mutual

/-- Parse one JSON value.  Fuel bounds the combined nesting and member count. -/
def parseVal : Nat → List Char → Except String (JsonVal × List Char)
  | 0, _ => .error "fuel exhausted"
  | fuel + 1, l =>
    match l with
    | [] => .error "expecting value"
    | c :: rest =>
      if c = '"' then (strScan rest).map (fun p => (.str ⟨p.1⟩, p.2))
      else if c = lbrace then
        match skipJsonWS rest with
        | d :: rest2 =>
          if d = rbrace then .ok (.obj [], rest2)
          else parseMembers fuel [] (d :: rest2)
        | [] => .error "unterminated object"
      else if c = '[' then
        match skipJsonWS rest with
        | d :: rest2 =>
          if d = ']' then .ok (.arr [], rest2)
          else parseItems fuel [] (d :: rest2)
        | [] => .error "unterminated array"
      else if c = 't' then
        if pfxMatches ['r', 'u', 'e'] rest then .ok (.boolean true, rest.drop 3)
        else .error "expecting value"
      else if c = 'f' then
        if pfxMatches ['a', 'l', 's', 'e'] rest then .ok (.boolean false, rest.drop 4)
        else .error "expecting value"
      else if c = 'n' then
        if pfxMatches ['u', 'l', 'l'] rest then .ok (.null, rest.drop 3)
        else .error "expecting value"
      else if c = '-' || c.isDigit then (numScan l).map (fun p => (.num p.1, p.2))
      else .error "expecting value"

/-- Parse the members of an object, positioned at a key (duplicate keys:
last assignment wins, as in Python dicts). -/
def parseMembers : Nat → Dict → List Char → Except String (JsonVal × List Char)
  | 0, _, _ => .error "fuel exhausted"
  | _ + 1, _, [] => .error "unterminated object"
  | fuel + 1, acc, c :: rest =>
    if c = '"' then
      match strScan rest with
      | .error e => .error e
      | .ok (key, r1) =>
        match skipJsonWS r1 with
        | ':' :: r2 =>
          match parseVal fuel (skipJsonWS r2) with
          | .error e => .error e
          | .ok (v, r3) =>
            let acc2 := dictSet acc ⟨key⟩ v
            match skipJsonWS r3 with
            | ',' :: r4 =>
              match skipJsonWS r4 with
              | d :: r5 => parseMembers fuel acc2 (d :: r5)
              | [] => .error "unterminated object"
            | d :: r4 =>
              if d = rbrace then .ok (.obj acc2, r4)
              else .error "expecting comma delimiter"
            | [] => .error "unterminated object"
        | _ => .error "expecting colon delimiter"
    else .error "expecting property name"

/-- Parse the items of an array, positioned at a value. -/
def parseItems : Nat → List JsonVal → List Char → Except String (JsonVal × List Char)
  | 0, _, _ => .error "fuel exhausted"
  | fuel + 1, acc, l =>
    match parseVal fuel (skipJsonWS l) with
    | .error e => .error e
    | .ok (v, r1) =>
      match skipJsonWS r1 with
      | ',' :: r2 => parseItems fuel (acc ++ [v]) r2
      | d :: r2 =>
        if d = ']' then .ok (.arr (acc ++ [v]), r2)
        else .error "expecting comma delimiter"
      | [] => .error "unterminated array"

end

/-- `json.loads(candidate)`: parse one document and require only whitespace
after it ("Extra data" otherwise).  The candidate always starts with an
opening brace, so the parsed value is an object or an error. -/
def parseJsonDoc (s : String) : Except String JsonVal :=
  match parseVal (s.data.length + 1) (skipJsonWS s.data) with
  | .error e => .error e
  | .ok (v, rest) =>
    if (skipJsonWS rest).isEmpty then .ok v else .error "Extra data"

/-! ## Python exceptions surfaced by the pipeline -/

inductive PyErr where
  | attributeError : String → PyErr
  | indexError : String → PyErr
deriving DecidableEq

def PyErr.msg : PyErr → String
  | .attributeError m => m
  | .indexError m => m

/-! ## The auto-correct / normalization blocks of `_extract_and_validate_json`

Each block touches `raw_json[field]` only when the key is present; calling
`.strip()` on a non-string value raises `AttributeError`, which this helper
does not catch (it escapes to `analyze_clause`). -/

def normalizeReason (d : Dict) : Except PyErr Dict :=
  match dictGet d "reason" with
  | none => .ok d
  | some (.str s) =>
    let s1 := pyStrip s
    let s2 := if s1.length < 5 then "Compliance analysis: " ++ s1 else s1
    .ok (dictSet d "reason" (.str s2))
  | some _ => .error (.attributeError "object has no attribute strip")

def normalizeStatus (d : Dict) : Except PyErr Dict :=
  match dictGet d "compliance_status" with
  | none => .ok d
  | some (.str s) =>
    let status := pyLower (pyStrip s)
    if ["compliant", "yes", "pass"].contains status then
      .ok (dictSet d "compliance_status" (.str "Compliant"))
    else if ["non-compliant", "noncompliant", "no", "fail"].contains status then
      .ok (dictSet d "compliance_status" (.str "Non-Compliant"))
    else if ["partial", "partially compliant", "partly"].contains status then
      .ok (dictSet d "compliance_status" (.str "Partially Compliant"))
    else .ok d
  | some _ => .error (.attributeError "object has no attribute strip")

def normalizeRisk (d : Dict) : Except PyErr Dict :=
  match dictGet d "risk_level" with
  | none => .ok d
  | some (.str s) =>
    let risk := pyLower (pyStrip s)
    if ["low", "l"].contains risk then
      .ok (dictSet d "risk_level" (.str "Low"))
    else if ["medium", "med", "m", "moderate"].contains risk then
      .ok (dictSet d "risk_level" (.str "Medium"))
    else if ["high", "h", "critical"].contains risk then
      .ok (dictSet d "risk_level" (.str "High"))
    else .ok d
  | some _ => .error (.attributeError "object has no attribute strip")

def normalizeRaw (d : Dict) : Except PyErr Dict := do
  let d1 ← normalizeReason d
  let d2 ← normalizeStatus d1
  normalizeRisk d2

/-! ## Pydantic construction `ComplianceResult(**raw_json)`

Pydantic v1 validates the fields in declaration order, collecting one error
per failing field; extra keys are ignored (default `Extra.ignore`).  A field
error is `(loc, msg)`, matching `err['loc'][0]` and `err['msg']`. -/

/-- `float()` coercion of a string (subset: optional sign, decimal digits). -/
def pyFloatOfString (s : String) : Option ℚ :=
  match numScan (pyStrip s).data with
  | .ok (q, []) => some q
  | _ => none

/-- Pydantic v1 coercion into `float` with `ge=0.0, le=1.0`. -/
def validateScore (v : JsonVal) : Except (String × String) ℚ :=
  let coerced : Except (String × String) ℚ :=
    match v with
    | .num q => .ok q
    | .boolean b => .ok (if b then 1 else 0)
    | .str s =>
      match pyFloatOfString s with
      | some q => .ok q
      | none => .error ("confidence_score", "value is not a valid float")
    | .null => .error ("confidence_score", "none is not an allowed value")
    | _ => .error ("confidence_score", "value is not a valid float")
  match coerced with
  | .error e => .error e
  | .ok q =>
    if q < 0 then .error ("confidence_score", "ensure this value is greater than or equal to 0.0")
    else if 1 < q then .error ("confidence_score", "ensure this value is less than or equal to 1.0")
    else .ok q

/-- Pydantic `Literal[...]` check for `compliance_status`. -/
def validateStatus (v : JsonVal) : Except (String × String) String :=
  match v with
  | .str s =>
    if canonicalStatuses.contains s then .ok s
    else .error ("compliance_status",
      "unexpected value; permitted: Compliant, Non-Compliant, Partially Compliant, Unknown")
  | _ => .error ("compliance_status",
      "unexpected value; permitted: Compliant, Non-Compliant, Partially Compliant, Unknown")

/-- Pydantic `Literal[...]` check for `risk_level`. -/
def validateRisk (v : JsonVal) : Except (String × String) String :=
  match v with
  | .str s =>
    if canonicalRisks.contains s then .ok s
    else .error ("risk_level", "unexpected value; permitted: Low, Medium, High, Unknown")
  | _ => .error ("risk_level", "unexpected value; permitted: Low, Medium, High, Unknown")

/-- `reason: str = Field(min_length=5)` plus the `reason_not_empty` validator. -/
def validateReason (v : JsonVal) : Except (String × String) String :=
  match v with
  | .str s =>
    if s.length < 5 then .error ("reason", "ensure this value has at least 5 characters")
    else if hasNonWS s then .ok s
    else .error ("reason", "Reason cannot be empty")
  | _ => .error ("reason", "str type expected")

def requiredField (d : Dict) (f : String) (check : JsonVal → Except (String × String) α) :
    Except (String × String) α :=
  match dictGet d f with
  | none => .error (f, "field required")
  | some v => check v

def errsOf (e : Except (String × String) α) : List (String × String) :=
  match e with
  | .ok _ => []
  | .error err => [err]

/-- `ComplianceResult(**raw_json)`: all four field checks, collecting errors. -/
def pydValidate (d : Dict) : Except (List (String × String)) ComplianceResult :=
  let eStatus := requiredField d "compliance_status" validateStatus
  let eReason := requiredField d "reason" validateReason
  let eRisk := requiredField d "risk_level" validateRisk
  let eScore := requiredField d "confidence_score" validateScore
  match eStatus, eReason, eRisk, eScore with
  | .ok a, .ok b, .ok c, .ok q => .ok ⟨a, b, c, q⟩
  | _, _, _, _ =>
    .error (errsOf eStatus ++ errsOf eReason ++ errsOf eRisk ++ errsOf eScore)

/-- `"; ".join(...)` over the per-field error annotations. -/
def joinStrs (sep : String) : List String → String
  | [] => ""
  | [x] => x
  | x :: xs => x ++ sep ++ joinStrs sep xs

def joinErrs (errs : List (String × String)) : String :=
  joinStrs "; " (errs.map (fun e => e.1 ++ ": " ++ e.2))

/-! ## `_extract_and_validate_json` -/

def unknownUnstructured : ComplianceResult :=
  ⟨"Unknown", "LLM did not return structured output", "Unknown", 0⟩

/-- The stage after `json.loads`: auto-correct blocks, then Pydantic
construction, with the `ValidationError` handler producing the fallback.
An `AttributeError` from the auto-correct blocks escapes. -/
def processObj (d : Dict) : Except PyErr ComplianceResult :=
  match normalizeRaw d with
  | .error e => .error e
  | .ok d' =>
    match pydValidate d' with
    | .ok r => .ok r
    | .error errs =>
      .ok ⟨"Unknown", "Validation failed: " ++ joinErrs errs, "Unknown", 0⟩

/-- `ComplianceRAG._extract_and_validate_json`. -/
def extractAndValidateJson (responseText : String) : Except PyErr ComplianceResult :=
  match findJsonCandidate responseText with
  | none => .ok unknownUnstructured
  | some cand =>
    match parseJsonDoc cand with
    | .error msg => .ok ⟨"Unknown", "Invalid JSON format: " ++ msg, "Unknown", 0⟩
    | .ok (.obj d) => processObj d
    -- unreachable: the regex candidate always starts with an opening brace,
    -- so the parsed document is an object or a parse error
    | .ok _ => processObj []

/-! ## `RegulationVectorStore` (`app/embeddings.py`) -/

/-- A raw dataset item: a JSON object with string values
(`clause_id`, `heading`, `text`, ...). -/
def RawItem := List (String × String)

instance : DecidableEq RawItem := by unfold RawItem; infer_instance

def itemGet (item : RawItem) (k : String) : Option String :=
  match item with
  | [] => none
  | (k', v) :: rest => if k' = k then some v else itemGet rest k

structure RegulationVectorStore where
  /-- `self.model`: the sentence-transformer; `analyze_clause` deletes it. -/
  model : Option (String → List ℚ)
  /-- `self.metadata`: the dataset items in insertion order. -/
  metadata : List RawItem
  /-- `self.index`: the vectors added to the faiss `IndexFlatL2`. -/
  index : List (List ℚ)

/-- Squared Euclidean distance (faiss `IndexFlatL2` metric). -/
def sqDist (u v : List ℚ) : ℚ :=
  (List.zipWith (fun a b => (a - b) * (a - b)) u v).sum

/-- Ordering used by the k-nearest selection: increasing distance,
ties broken by insertion id. -/
def faissRel (db : List (List ℚ)) (q : List ℚ) (i j : Nat) : Prop :=
  sqDist (db.getD i []) q < sqDist (db.getD j []) q ∨
    (sqDist (db.getD i []) q = sqDist (db.getD j []) q ∧ i ≤ j)

instance faissRelDec (db : List (List ℚ)) (q : List ℚ) : DecidableRel (faissRel db q) :=
  fun i j => by unfold faissRel; infer_instance

instance faissRelTotal (db : List (List ℚ)) (q : List ℚ) : IsTotal Nat (faissRel db q) :=
  ⟨fun i j => by
    unfold faissRel
    rcases lt_trichotomy (sqDist (db.getD i []) q) (sqDist (db.getD j []) q) with h | h | h
    · exact Or.inl (Or.inl h)
    · rcases Nat.le_total i j with hij | hij
      · exact Or.inl (Or.inr ⟨h, hij⟩)
      · exact Or.inr (Or.inr ⟨h.symm, hij⟩)
    · exact Or.inr (Or.inl h)⟩

instance faissRelTrans (db : List (List ℚ)) (q : List ℚ) : IsTrans Nat (faissRel db q) :=
  ⟨fun i j k hij hjk => by
    unfold faissRel at *
    rcases hij with h1 | ⟨h1, h1'⟩ <;> rcases hjk with h2 | ⟨h2, h2'⟩
    · exact Or.inl (h1.trans h2)
    · exact Or.inl (h2 ▸ h1)
    · exact Or.inl (h1 ▸ h2)
    · exact Or.inr ⟨h1.trans h2, h1'.trans h2'⟩⟩

/-- All stored ids, ranked by distance to the query. -/
def rankAll (db : List (List ℚ)) (q : List ℚ) : List Nat :=
  (List.range db.length).insertionSort (faissRel db q)

/-- Modelled from the faiss contract: `IndexFlatL2.search` returns the `k`
nearest ids in increasing-distance order and pads with id `-1` (distance
`FLT_MAX`) when `k` exceeds the number of stored vectors. -/
def faissSearch (db : List (List ℚ)) (q : List ℚ) (k : Nat) : List Int :=
  let found := (rankAll db q).take k
  found.map Int.ofNat ++ List.replicate (k - found.length) (-1)

/-- Python list indexing `l[i]`, including negative indices from the end. -/
def pyGet (l : List α) (i : Int) : Option α :=
  if 0 ≤ i then l.get? i.toNat
  else if (-i).toNat ≤ l.length then l.get? (l.length - (-i).toNat)
  else none

/-- `RegulationVectorStore.search`: embed the query, run faiss, and map each
returned id through `self.metadata[idx]`.  `self.model.encode` raises
`AttributeError` once the model has been deleted. -/
def RegulationVectorStore.search (st : RegulationVectorStore) (queryText : String)
    (topK : Nat) : Except PyErr (List RawItem) :=
  match st.model with
  | none => .error (.attributeError "RegulationVectorStore object has no attribute model")
  | some enc =>
    let qv := enc queryText
    let idxs := faissSearch st.index qv topK
    match idxs.mapM (fun i => pyGet st.metadata i) with
    | some res => .ok res
    | none => .error (.indexError "list index out of range")

inductive LoadErr where
  | keyError : String → LoadErr
  | indexError : String → LoadErr
deriving DecidableEq

/-- `[item["text"] for item in data]`: `KeyError` at the first missing key. -/
def collectTexts : List RawItem → Except LoadErr (List String)
  | [] => .ok []
  | item :: rest =>
    match itemGet item "text" with
    | none => .error (.keyError "text")
    | some t => (collectTexts rest).map (t :: ·)

/-- `RegulationVectorStore.load_regulations`: read the dataset, embed every
`text`, and build the flat L2 index.  On an empty dataset
`embeddings.shape[1]` raises `IndexError` (the encoder returns a
zero-row array); there is no explicit dataset validation in the source. -/
def loadRegulations (data : List RawItem) (enc : String → List ℚ) :
    Except LoadErr RegulationVectorStore :=
  match collectTexts data with
  | .error e => .error e
  | .ok texts =>
    if texts.isEmpty then .error (.indexError "tuple index out of range")
    else .ok { model := some enc, metadata := data, index := texts.map enc }

/-! ## `ComplianceRAG.analyze_clause`

The retrieval (and the deletion of the embedding model) happen *before* the
`try:` block; only the model call, the extraction and the rule overrides are
inside it, and its `except Exception` handler produces the technical-error
fallback.  The prompt string itself does not influence the returned result
and is elided (the retrieved items are assumed to carry `clause_id`/`text`,
as built from the dataset). -/

/-- The body of the `try:` block; `llm` is the outcome of `ollama.chat`
(an `.error` models any client-level exception). -/
def tryAnalyze (clauseText : String) (llm : Except String String) : ComplianceResult :=
  match llm with
  | .error e => ⟨"Unknown", "Analysis failed due to technical error: " ++ e, "Unknown", 0⟩
  | .ok responseText =>
    match extractAndValidateJson responseText with
    | .error e =>
      ⟨"Unknown", "Analysis failed due to technical error: " ++ e.msg, "Unknown", 0⟩
    | .ok r => applyRuleBasedChecks clauseText r

/-- `ComplianceRAG.analyze_clause`: search (outside `try`), delete the
embedding model, then the guarded pipeline.  Returns the result together
with the mutated engine state. -/
def analyzeClause (st : RegulationVectorStore) (clauseText : String)
    (llm : Except String String) :
    Except PyErr (ComplianceResult × RegulationVectorStore) :=
  match st.search clauseText 2 with
  | .error e => .error e
  | .ok _retrieved =>
    let st' := { st with model := none }
    .ok (tryAnalyze clauseText llm, st')

/-! ## Concrete artefacts used by the claim theorems -/

def sLB : String := String.singleton lbrace

def sRB : String := String.singleton rbrace

/-- Hex digit character, lowercase, as `json.dumps` renders `\uXXXX`. -/
def hexDigit (n : Nat) : Char :=
  if n < 10 then Char.ofNat (48 + n) else Char.ofNat (87 + n)

/-- Four-digit lowercase hex rendering of a code unit below `0x10000`. -/
def hex4 (n : Nat) : List Char :=
  [hexDigit (n / 4096 % 16), hexDigit (n / 256 % 16), hexDigit (n / 16 % 16), hexDigit (n % 16)]

/-- The escape `json.dumps` (default `ensure_ascii=True`) applies to one
character: quote, backslash and the shorthand control escapes, printable
ASCII kept literal, everything else rendered `\uXXXX` (as a surrogate pair
beyond the basic multilingual plane). -/
def jsonEscapeChar (c : Char) : List Char :=
  if c = '"' then ['\\', '"']
  else if c = '\\' then ['\\', '\\']
  else if c = '\n' then ['\\', 'n']
  else if c = '\r' then ['\\', 'r']
  else if c = '\t' then ['\\', 't']
  else if c.toNat = 8 then ['\\', 'b']
  else if c.toNat = 12 then ['\\', 'f']
  else if 32 ≤ c.toNat ∧ c.toNat ≤ 126 then [c]
  else if c.toNat < 65536 then '\\' :: 'u' :: hex4 c.toNat
  else
    '\\' :: 'u' :: hex4 (55296 + (c.toNat - 65536) / 1024) ++
      '\\' :: 'u' :: hex4 (56320 + (c.toNat - 65536) % 1024)

/-- `json.dumps` escaping of a whole character list. -/
def jsonEscapeList (l : List Char) : List Char := (l.map jsonEscapeChar).flatten

/-- `json.dumps` serialization of a string, without the surrounding quotes. -/
def jsonEscape (s : String) : String := ⟨jsonEscapeList s.data⟩

/-- The JSON serialization of a result, in `json.dumps` default formatting —
string fields escaped as `json.dumps` does — with the float rendered by a
given decimal token (`repr` of a Python float is always such a token, and
parses back to the same value). -/
def renderResultWith (r : ComplianceResult) (scoreTok : String) : String :=
  sLB ++ "\"compliance_status\": \"" ++ jsonEscape r.compliance_status ++
    "\", \"reason\": \"" ++ jsonEscape r.reason ++ "\", \"risk_level\": \"" ++
    jsonEscape r.risk_level ++ "\", \"confidence_score\": " ++ scoreTok ++ sRB

/-- A two-clause engine state as built by `load_regulations`: embeddings
`[0]` and `[10]`, any query embedding to `[10]`. -/
def demoStore : RegulationVectorStore :=
  { model := some (fun _ => [10])
    metadata := [[("clause_id", "c0"), ("text", "t0")], [("clause_id", "c1"), ("text", "t1")]]
    index := [[0], [10]] }

/-- `demoStore` after `analyze_clause` has deleted the embedding model. -/
def demoStoreReleased : RegulationVectorStore := { demoStore with model := none }

/-- Required fields of the result schema, in declaration order. -/
def requiredFields : List String :=
  ["compliance_status", "reason", "risk_level", "confidence_score"]

/-- The required fields absent from a parsed object. -/
def missingFields (d : Dict) : List String :=
  requiredFields.filter (fun f => (dictGet d f).isNone)

/-- A dict value is either absent or a string — the precondition under which
the auto-correct blocks cannot raise `AttributeError`. -/
def strOrAbsent (d : Dict) (f : String) : Prop :=
  ∀ v, dictGet d f = some v → ∃ s, v = JsonVal.str s

/-- The serialized document body (after the opening brace), segmented along
the parser's consumption boundaries; `sD`, `rD`, `yD` are the already-escaped
bodies of the three string fields. -/
def docBody (sD rD yD : List Char) (ip fp : List Char) : List Char :=
  '"' :: ("compliance_status".data ++ '"' :: ':' :: ' ' :: '"' :: (sD ++ '"' :: ',' :: ' ' ::
  '"' :: ("reason".data ++ '"' :: ':' :: ' ' :: '"' :: (rD ++ '"' :: ',' :: ' ' ::
  '"' :: ("risk_level".data ++ '"' :: ':' :: ' ' :: '"' :: (yD ++ '"' :: ',' :: ' ' ::
  '"' :: ("confidence_score".data ++ '"' :: ':' :: ' ' :: (ip ++ '.' :: fp))))))))


/-! ## Claim theorems -/

/-! ### General helper lemmas -/

theorem pfxMatches_self_append (n rest : List Char) : pfxMatches n (n ++ rest) = true := by
  induction n with
  | nil => rfl
  | cons a as ih => simp [pfxMatches, ih]

theorem listContains_of_decomp (a x b : List Char) :
    listContains (a ++ x ++ b) x = true := by
  induction a with
  | nil =>
    cases hx : x ++ b with
    | nil =>
      rcases List.append_eq_nil.mp hx with ⟨rfl, rfl⟩
      simp [listContains, pfxMatches]
    | cons c rest =>
      simp only [List.nil_append, listContains, hx]
      have : pfxMatches x (c :: rest) = true := by
        rw [← hx]; exact pfxMatches_self_append x b
      simp [this]
  | cons c cs ih =>
    cases hx : x ++ b with
    | nil =>
      rcases List.append_eq_nil.mp hx with ⟨rfl, rfl⟩
      simp [listContains, pfxMatches, ih]
    | cons d rest =>
      simp only [List.cons_append, listContains]
      rw [List.append_assoc] at ih ⊢
      simp [ih]

/-- `(a ++ b).data = a.data ++ b.data`, proved by unfolding the structure. -/
theorem strData_append (a b : String) : (a ++ b).data = a.data ++ b.data := by
  cases a; cases b; simp [String.append]

theorem strLength_append (a b : String) : (a ++ b).length = a.length + b.length := by
  cases a; cases b; simp [String.length, String.append]

/-- Substring containment survives being wrapped on both sides. -/
theorem strContains_of_decomp (pre x post : String) :
    strContains (pre ++ x ++ post) x = true := by
  unfold strContains
  rw [strData_append, strData_append]
  exact listContains_of_decomp pre.data x.data post.data

theorem dictGet_dictSet_same (d : Dict) (k : String) (v : JsonVal) :
    dictGet (dictSet d k v) k = some v := by
  induction d with
  | nil => simp [dictSet, dictGet]
  | cons p rest ih =>
    obtain ⟨k', v'⟩ := p
    by_cases h : k' = k <;> simp [dictSet, dictGet, h, ih]

theorem dictGet_dictSet_ne (d : Dict) (k k2 : String) (v : JsonVal) (h : k ≠ k2) :
    dictGet (dictSet d k v) k2 = dictGet d k2 := by
  induction d with
  | nil => simp [dictSet, dictGet, h]
  | cons p rest ih =>
    obtain ⟨k', v'⟩ := p
    by_cases h' : k' = k
    · subst h'; simp [dictSet, dictGet, h]
    · simp [dictSet, dictGet, h', ih]


/-- C3: for every clause text whose lower-cased form contains a keyword from
any of the three fixed sets, and for every input result, the rule-override
step returns Non-Compliant / High, one of the fixed regulation-citation
reasons — the last matching rule in the order retention → sharing → rights
wins — and a confidence score that is at least 0.85 and never below the
input score. -/
theorem ruleOverride_forces_nonCompliant (c : String) (r : ComplianceResult)
    (h : (retentionMatch c || sharingMatch c || rightsMatch c) = true) :
    (applyRuleBasedChecks c r).compliance_status = "Non-Compliant" ∧
    (applyRuleBasedChecks c r).risk_level = "High" ∧
    (applyRuleBasedChecks c r).reason =
      (if rightsMatch c = true then reasonRights
       else if sharingMatch c = true then reasonSharing
       else reasonRetention) ∧
    (0.85 : ℚ) ≤ (applyRuleBasedChecks c r).confidence_score ∧
    r.confidence_score ≤ (applyRuleBasedChecks c r).confidence_score := by
  unfold applyRuleBasedChecks
  cases h1 : retentionMatch c <;> cases h2 : sharingMatch c <;> cases h3 : rightsMatch c <;>
    simp only [h1, h2, h3, Bool.false_or, Bool.or_false, Bool.true_or, Bool.or_true] at h <;>
    first
      | exact absurd h (by decide)
      | (refine ⟨by simp, by simp, by simp, ?_, ?_⟩ <;>
          simp [max_assoc, max_self, le_max_iff])

/-- Witness for C3 at a concrete clause and result. -/
theorem ruleOverride_forces_nonCompliant_witness :
    ((retentionMatch "Data will be retained indefinitely." ||
      sharingMatch "Data will be retained indefinitely." ||
      rightsMatch "Data will be retained indefinitely.") = true) ∧
    ((applyRuleBasedChecks "Data will be retained indefinitely."
        ⟨"Compliant", "all good yes", "Low", 0.5⟩).compliance_status = "Non-Compliant" ∧
     (applyRuleBasedChecks "Data will be retained indefinitely."
        ⟨"Compliant", "all good yes", "Low", 0.5⟩).risk_level = "High" ∧
     (applyRuleBasedChecks "Data will be retained indefinitely."
        ⟨"Compliant", "all good yes", "Low", 0.5⟩).reason =
       (if rightsMatch "Data will be retained indefinitely." = true then reasonRights
        else if sharingMatch "Data will be retained indefinitely." = true then reasonSharing
        else reasonRetention) ∧
     (0.85 : ℚ) ≤ (applyRuleBasedChecks "Data will be retained indefinitely."
        ⟨"Compliant", "all good yes", "Low", 0.5⟩).confidence_score ∧
     (ComplianceResult.mk "Compliant" "all good yes" "Low" 0.5).confidence_score ≤
       (applyRuleBasedChecks "Data will be retained indefinitely."
        ⟨"Compliant", "all good yes", "Low", 0.5⟩).confidence_score) :=
  ⟨by decide,
   ruleOverride_forces_nonCompliant "Data will be retained indefinitely."
     ⟨"Compliant", "all good yes", "Low", 0.5⟩ (by decide)⟩

/-- C10: for every clause text whose lower-cased form contains no keyword
from any of the three fixed rule sets, the rule-override step returns the
input result with all four fields unchanged. -/
theorem ruleOverride_frame (c : String) (r : ComplianceResult)
    (h1 : retentionMatch c = false) (h2 : sharingMatch c = false)
    (h3 : rightsMatch c = false) :
    applyRuleBasedChecks c r = r := by
  unfold applyRuleBasedChecks
  simp [h1, h2, h3]

/-- Witness for C10 at a concrete clause and result. -/
theorem ruleOverride_frame_witness :
    retentionMatch "The data is deleted after 30 days." = false ∧
    sharingMatch "The data is deleted after 30 days." = false ∧
    rightsMatch "The data is deleted after 30 days." = false ∧
    applyRuleBasedChecks "The data is deleted after 30 days."
      ⟨"Compliant", "deleted promptly", "Low", 0.7⟩ =
      ⟨"Compliant", "deleted promptly", "Low", 0.7⟩ :=
  ⟨by decide, by decide, by decide,
   ruleOverride_frame "The data is deleted after 30 days."
     ⟨"Compliant", "deleted promptly", "Low", 0.7⟩ (by decide) (by decide) (by decide)⟩

/-- C5: when the raw model text contains no balanced-brace JSON object
substring, extraction returns the canonical Unknown result with reason
exactly "LLM did not return structured output", risk Unknown and score 0. -/
theorem noCandidate_yields_unknown (t : String)
    (h : findJsonCandidate t = none) :
    extractAndValidateJson t =
      .ok ⟨"Unknown", "LLM did not return structured output", "Unknown", 0⟩ := by
  unfold extractAndValidateJson
  rw [h]
  rfl

/-- Witness for C5 at the spec's example text. -/
theorem noCandidate_yields_unknown_witness :
    findJsonCandidate "I am not sure." = none ∧
    extractAndValidateJson "I am not sure." =
      .ok ⟨"Unknown", "LLM did not return structured output", "Unknown", 0⟩ :=
  ⟨by decide, noCandidate_yields_unknown "I am not sure." (by decide)⟩

/-- C1 (code bug): the first `analyze_clause` call absorbs faults and returns
a well-formed Unknown result, but it deletes the embedding model with the
retrieval sitting *outside* the `try:` block, so a second call on the same
engine raises `AttributeError` from `vector_store.search` instead of
returning a ComplianceResult. -/
theorem analyzeClause_second_call_raises :
    analyzeClause demoStore "some clause" (.ok "no json here") =
      .ok (unknownUnstructured, demoStoreReleased) ∧
    analyzeClause demoStoreReleased "some clause" (.ok "no json here") =
      .error (.attributeError "RegulationVectorStore object has no attribute model") := by
  have hrank : rankAll [[(0 : ℚ)], [10]] [10] = [1, 0] := by
    simp only [rankAll, List.insertionSort, List.orderedInsert]
    norm_num [faissRel, sqDist]
  have hsearch : demoStore.search "some clause" 2 =
      .ok [[("clause_id", "c1"), ("text", "t1")], [("clause_id", "c0"), ("text", "t0")]] := by
    show RegulationVectorStore.search demoStore "some clause" 2 = _
    unfold RegulationVectorStore.search
    simp only [demoStore, faissSearch, hrank]
    rfl
  constructor
  · unfold analyzeClause
    rw [hsearch]
    rfl
  · rfl

set_option maxRecDepth 8000 in
/-- C4 counterexample: with 2 indexed clauses and `k = 3`, faiss pads with id
`-1`, which Python negative indexing resolves to the *last* clause: the
result is `[c1, c0, c1]` — not "exactly all the indexed clauses", and not
ordered by non-decreasing distance (the padded third entry is the closest
clause again, after the farther `c0`). -/
theorem search_padding_counterexample :
    demoStore.metadata.length = 2 ∧
    demoStore.search "q" 3 =
      .ok [[("clause_id", "c1"), ("text", "t1")], [("clause_id", "c0"), ("text", "t0")],
           [("clause_id", "c1"), ("text", "t1")]] ∧
    ¬ ([[("clause_id", "c1"), ("text", "t1")], [("clause_id", "c0"), ("text", "t0")],
        [("clause_id", "c1"), ("text", "t1")]] : List RawItem).Perm demoStore.metadata ∧
    sqDist (demoStore.index.getD 1 []) [10] < sqDist (demoStore.index.getD 0 []) [10] := by
  refine ⟨rfl, by with_unfolding_all rfl, by decide, ?_⟩
  norm_num [demoStore, sqDist]

/-- C6 counterexample: a dataset whose only clause has a `text` field but no
`clause_id` (a required field of the data model) builds successfully —
`load_regulations` only ever reads `item["text"]`. -/
theorem load_missing_required_field_succeeds :
    itemGet [("text", "some regulation text")] "clause_id" = none ∧
    (loadRegulations [[("text", "some regulation text")]] (fun _ => [0])).isOk = true :=
  ⟨rfl, rfl⟩

set_option maxRecDepth 8000 in
/-- C7 counterexample: a well-formed model object with `confidence_score`
1.5 is *not* clamped to 1.0 — Pydantic validation fails and extraction
returns the canonical Unknown fallback, discarding the other fields. -/
theorem score_out_of_range_not_clamped :
    extractAndValidateJson
        (renderResultWith ⟨"Compliant", "clause looks fine", "Low", 1.5⟩ "1.5") =
      .ok ⟨"Unknown",
           "Validation failed: confidence_score: ensure this value is less than or equal to 1.0",
           "Unknown", 0⟩ ∧
    ("Unknown" : String) ≠ "Compliant" ∧ (0 : ℚ) ≠ 1 := by
  refine ⟨by with_unfolding_all rfl, by decide, by norm_num⟩

set_option maxRecDepth 8000 in
/-- C8 counterexample: with `compliance_status` missing, the valid
`risk_level` "High" and `confidence_score` 0.5 present in the object are
*not* preserved — the fallback is the canonical Unknown result. -/
theorem missing_field_values_not_preserved :
    extractAndValidateJson
        (sLB ++ "\"risk_level\": \"High\", \"reason\": \"valid reason here\", \"confidence_score\": 0.5" ++ sRB) =
      .ok ⟨"Unknown", "Validation failed: compliance_status: field required", "Unknown", 0⟩ ∧
    ("Unknown" : String) ≠ "High" ∧ (0 : ℚ) ≠ 0.5 := by
  refine ⟨by with_unfolding_all rfl, by decide, by norm_num⟩

set_option maxRecDepth 8000 in
/-- C9 counterexample: a result whose canonical fields satisfy all the
claim's side conditions (trimmed reason length 5 ≥ 5, score in range) but
whose reason carries surrounding spaces is *not* reproduced by normalizing
its serialization — the reason comes back stripped. -/
theorem normalization_not_idempotent_on_canonical :
    validResult ⟨"Compliant", " hello ", "Low", 0.9⟩ = true ∧
    (pyStrip " hello ").length = 5 ∧
    extractAndValidateJson (renderResultWith ⟨"Compliant", " hello ", "Low", 0.9⟩ "0.9") =
      .ok ⟨"Compliant", "hello", "Low", 0.9⟩ ∧
    ComplianceResult.mk "Compliant" "hello" "Low" 0.9 ≠ ⟨"Compliant", " hello ", "Low", 0.9⟩ := by
  refine ⟨by with_unfolding_all decide, by decide, by with_unfolding_all rfl, ?_⟩
  intro h
  exact absurd (congrArg ComplianceResult.reason h) (by decide)

/-- C6 amended, auxiliary: `[item["text"] for item in data]` fails exactly
when some item lacks the `text` key. -/
theorem collectTexts_error_iff (data : List RawItem) :
    (∃ e, collectTexts data = .error e) ↔ (∃ item ∈ data, itemGet item "text" = none) := by
  induction data with
  | nil => simp [collectTexts]
  | cons item rest ih =>
    cases hit : itemGet item "text" with
    | none => simp [collectTexts, hit]
    | some t =>
      cases hr : collectTexts rest with
      | error e =>
        simp only [collectTexts, hit, hr]
        constructor
        · intro _
          rcases ih.mp ⟨e, hr⟩ with ⟨it, hmem, hnone⟩
          exact ⟨it, List.mem_cons_of_mem _ hmem, hnone⟩
        · intro _; exact ⟨e, rfl⟩
      | ok ts =>
        simp only [collectTexts, hit, hr]
        constructor
        · rintro ⟨e, he⟩; exact absurd he (by simp [Except.map])
        · rintro ⟨it, hmem, hnone⟩
          rcases List.mem_cons.mp hmem with rfl | hmem'
          · exact absurd hnone (by simp [hit])
          · rcases ih.mpr ⟨it, hmem', hnone⟩ with ⟨e, he⟩
            exact absurd he (by simp [hr])

/-- C6 amended, auxiliary: a successful text collection has one text per
dataset item. -/
theorem collectTexts_length (data : List RawItem) (ts : List String)
    (h : collectTexts data = .ok ts) : ts.length = data.length := by
  induction data generalizing ts with
  | nil =>
    unfold collectTexts at h
    cases h
    rfl
  | cons item rest ih =>
    unfold collectTexts at h
    cases hit : itemGet item "text" with
    | none => rw [hit] at h; exact absurd h (by simp)
    | some t =>
      rw [hit] at h
      cases hr : collectTexts rest with
      | error e => rw [hr] at h; exact absurd h (by simp [Except.map])
      | ok ts' =>
        rw [hr] at h
        simp [Except.map] at h
        subst h
        simp [ih ts' hr]

/-- C6 amended: index build fails exactly when the dataset is empty (the
`IndexError` from `embeddings.shape[1]`) or some clause lacks the `text`
field (the `KeyError` from `item["text"]`) — the spec's `DatasetError`
category; a clause missing only `clause_id` or `heading` builds fine. -/
theorem load_fails_iff_empty_or_missing_text (data : List RawItem) (enc : String → List ℚ) :
    (∃ e, loadRegulations data enc = .error e) ↔
      (data = [] ∨ ∃ item ∈ data, itemGet item "text" = none) := by
  cases hc : collectTexts data with
  | error e =>
    constructor
    · intro _
      exact Or.inr ((collectTexts_error_iff data).mp ⟨e, hc⟩)
    · intro _
      exact ⟨e, by simp [loadRegulations, hc]⟩
  | ok ts =>
    have hlen := collectTexts_length data ts hc
    constructor
    · rintro ⟨e, he⟩
      simp only [loadRegulations, hc] at he
      by_cases hempty : ts.isEmpty
      · left
        have hts : ts = [] := by
          cases ts with
          | nil => rfl
          | cons a b => simp [List.isEmpty] at hempty
        subst hts
        exact List.length_eq_zero.mp hlen.symm
      · rw [if_neg hempty] at he
        exact absurd he (by simp)
    · rintro (rfl | hmiss)
      · have hts : ts = [] := List.length_eq_zero.mp (by simpa using hlen)
        subst hts
        exact ⟨.indexError "tuple index out of range", by simp [loadRegulations, hc, List.isEmpty]⟩
      · rcases (collectTexts_error_iff data).mpr hmiss with ⟨e2, he2⟩
        rw [hc] at he2
        exact absurd he2 (by simp)

/-! ## C2: every path yields a valid result -/

theorem hasNonWS_append_left (a b : String) (h : hasNonWS a = true) :
    hasNonWS (a ++ b) = true := by
  unfold hasNonWS at h ⊢
  rw [strData_append, List.any_append, h, Bool.true_or]

theorem validResult_unknown_prefix (pre msg : String) (h5 : 5 ≤ pre.length)
    (hnw : hasNonWS pre = true) :
    validResult ⟨"Unknown", pre ++ msg, "Unknown", 0⟩ = true := by
  have hlen : 5 ≤ (pre ++ msg).length := by
    rw [strLength_append]; omega
  unfold validResult
  simp only [hasNonWS_append_left pre msg hnw, hlen, decide_eq_true_eq, decide_True,
    Bool.and_true, Bool.true_and]
  simp [canonicalStatuses, canonicalRisks]

theorem requiredField_ok (d : Dict) (f : String) (check : JsonVal → Except (String × String) α)
    (x : α) (h : requiredField d f check = .ok x) :
    ∃ v, dictGet d f = some v ∧ check v = .ok x := by
  unfold requiredField at h
  cases hd : dictGet d f with
  | none => rw [hd] at h; exact absurd h (by simp)
  | some v => rw [hd] at h; exact ⟨v, rfl, h⟩

theorem validateStatus_ok (v : JsonVal) (s : String) (h : validateStatus v = .ok s) :
    canonicalStatuses.contains s = true := by
  cases v with
  | str s' =>
    simp only [validateStatus] at h
    by_cases hc : canonicalStatuses.contains s' = true
    · rw [if_pos hc] at h
      cases h
      exact hc
    · rw [if_neg hc] at h
      exact absurd h (by simp)
  | num q => exact absurd h (by simp [validateStatus])
  | boolean b => exact absurd h (by simp [validateStatus])
  | null => exact absurd h (by simp [validateStatus])
  | obj l => exact absurd h (by simp [validateStatus])
  | arr l => exact absurd h (by simp [validateStatus])

theorem validateRisk_ok (v : JsonVal) (s : String) (h : validateRisk v = .ok s) :
    canonicalRisks.contains s = true := by
  cases v with
  | str s' =>
    simp only [validateRisk] at h
    by_cases hc : canonicalRisks.contains s' = true
    · rw [if_pos hc] at h
      cases h
      exact hc
    · rw [if_neg hc] at h
      exact absurd h (by simp)
  | num q => exact absurd h (by simp [validateRisk])
  | boolean b => exact absurd h (by simp [validateRisk])
  | null => exact absurd h (by simp [validateRisk])
  | obj l => exact absurd h (by simp [validateRisk])
  | arr l => exact absurd h (by simp [validateRisk])

theorem validateReason_ok (v : JsonVal) (s : String) (h : validateReason v = .ok s) :
    5 ≤ s.length ∧ hasNonWS s = true := by
  cases v with
  | str s' =>
    simp only [validateReason] at h
    by_cases h5 : s'.length < 5
    · rw [if_pos h5] at h; exact absurd h (by simp)
    · rw [if_neg h5] at h
      by_cases hw : hasNonWS s' = true
      · rw [if_pos hw] at h
        cases h
        exact ⟨by omega, hw⟩
      · rw [if_neg hw] at h; exact absurd h (by simp)
  | num q => exact absurd h (by simp [validateReason])
  | boolean b => exact absurd h (by simp [validateReason])
  | null => exact absurd h (by simp [validateReason])
  | obj l => exact absurd h (by simp [validateReason])
  | arr l => exact absurd h (by simp [validateReason])

theorem validateScore_ok_of_coerced (q' q : ℚ)
    (h : (if q' < 0 then
            .error ("confidence_score", "ensure this value is greater than or equal to 0.0")
          else if 1 < q' then
            .error ("confidence_score", "ensure this value is less than or equal to 1.0")
          else (.ok q' : Except (String × String) ℚ)) = .ok q) :
    (0 : ℚ) ≤ q ∧ q ≤ 1 := by
  by_cases h0 : q' < 0
  · rw [if_pos h0] at h; exact absurd h (by simp)
  · rw [if_neg h0] at h
    by_cases h1 : 1 < q'
    · rw [if_pos h1] at h; exact absurd h (by simp)
    · rw [if_neg h1] at h
      cases h
      exact ⟨le_of_not_lt h0, le_of_not_lt h1⟩

theorem validateScore_ok (v : JsonVal) (q : ℚ) (h : validateScore v = .ok q) :
    (0 : ℚ) ≤ q ∧ q ≤ 1 := by
  cases v with
  | num q' => exact validateScore_ok_of_coerced q' q h
  | boolean b =>
    cases b with
    | false => exact validateScore_ok_of_coerced 0 q h
    | true => exact validateScore_ok_of_coerced 1 q h
  | str s =>
    simp only [validateScore] at h
    cases hf : pyFloatOfString s with
    | none => rw [hf] at h; exact absurd h (by simp)
    | some q' =>
      rw [hf] at h
      exact validateScore_ok_of_coerced q' q h
  | null => exact absurd h (by simp [validateScore])
  | obj l => exact absurd h (by simp [validateScore])
  | arr l => exact absurd h (by simp [validateScore])

theorem pydValidate_ok_valid (d : Dict) (r : ComplianceResult)
    (h : pydValidate d = .ok r) : validResult r = true := by
  unfold pydValidate at h
  rcases hS : requiredField d "compliance_status" validateStatus with e1 | a <;>
    rw [hS] at h
  · exact absurd h (by simp)
  rcases hR : requiredField d "reason" validateReason with e2 | b <;>
    rw [hR] at h
  · exact absurd h (by simp)
  rcases hK : requiredField d "risk_level" validateRisk with e3 | c <;>
    rw [hK] at h
  · exact absurd h (by simp)
  rcases hQ : requiredField d "confidence_score" validateScore with e4 | q <;>
    rw [hQ] at h
  · exact absurd h (by simp)
  simp only [Except.ok.injEq] at h
  subst h
  obtain ⟨v1, _, hv1⟩ := requiredField_ok _ _ _ _ hS
  obtain ⟨v2, _, hv2⟩ := requiredField_ok _ _ _ _ hR
  obtain ⟨v3, _, hv3⟩ := requiredField_ok _ _ _ _ hK
  obtain ⟨v4, _, hv4⟩ := requiredField_ok _ _ _ _ hQ
  have c1 := validateStatus_ok v1 a hv1
  have c2 := validateReason_ok v2 b hv2
  have c3 := validateRisk_ok v3 c hv3
  have c4 := validateScore_ok v4 q hv4
  unfold validResult
  simp only [c1, c2.1, c2.2, c3, decide_eq_true_eq, Bool.true_and, Bool.and_true]
  simp [c2.1, c4.1, c4.2]

theorem processObj_ok_valid (d : Dict) (r : ComplianceResult)
    (h : processObj d = .ok r) : validResult r = true := by
  cases hn : normalizeRaw d with
  | error e =>
    simp only [processObj, hn] at h
    exact absurd h (by simp)
  | ok d' =>
    simp only [processObj, hn] at h
    cases hp : pydValidate d' with
    | ok r' =>
      simp only [hp] at h
      cases h
      exact pydValidate_ok_valid d' _ hp
    | error errs =>
      simp only [hp] at h
      cases h
      exact validResult_unknown_prefix "Validation failed: " (joinErrs errs) (by decide) (by decide)

theorem extract_ok_valid (t : String) (r : ComplianceResult)
    (h : extractAndValidateJson t = .ok r) : validResult r = true := by
  cases hf : findJsonCandidate t with
  | none =>
    simp only [extractAndValidateJson, hf] at h
    cases h
    with_unfolding_all decide
  | some cand =>
    simp only [extractAndValidateJson, hf] at h
    cases hp : parseJsonDoc cand with
    | error msg =>
      simp only [hp] at h
      cases h
      exact validResult_unknown_prefix "Invalid JSON format: " msg (by decide) (by decide)
    | ok v =>
      simp only [hp] at h
      cases v <;> exact processObj_ok_valid _ _ h

theorem validOverride (rsn : String) (q : ℚ) (h5 : 5 ≤ rsn.length)
    (hnw : hasNonWS rsn = true) (h0 : (0 : ℚ) ≤ q) (h1 : q ≤ 1) :
    validResult ⟨"Non-Compliant", rsn, "High", max q 0.85⟩ = true := by
  have hA : (0 : ℚ) ≤ max q 0.85 := le_max_of_le_left h0
  have hB : max q 0.85 ≤ 1 := max_le h1 (by norm_num)
  unfold validResult
  simp only [h5, hnw, decide_eq_true_eq, Bool.true_and, Bool.and_true]
  simp [canonicalStatuses, canonicalRisks, hA, hB]

theorem validResult_bounds (r : ComplianceResult) (h : validResult r = true) :
    (0 : ℚ) ≤ r.confidence_score ∧ r.confidence_score ≤ 1 := by
  unfold validResult at h
  simp only [Bool.and_eq_true, decide_eq_true_eq] at h
  exact ⟨h.1.2, h.2⟩

theorem ruleOverride_preserves_valid (c : String) (r : ComplianceResult)
    (h : validResult r = true) : validResult (applyRuleBasedChecks c r) = true := by
  obtain ⟨h0, h1⟩ := validResult_bounds r h
  unfold applyRuleBasedChecks
  cases retentionMatch c <;> cases sharingMatch c <;> cases rightsMatch c <;>
    simp only [if_true, if_false, Bool.false_eq_true, ite_true, ite_false] <;>
    first
      | exact h
      | (apply validOverride <;>
          first
            | decide
            | assumption
            | exact le_max_of_le_right (by norm_num)
            | exact max_le h1 (by norm_num)
            | exact max_le (max_le h1 (by norm_num)) (by norm_num))

theorem tryAnalyze_valid (c : String) (llm : Except String String) :
    validResult (tryAnalyze c llm) = true := by
  cases llm with
  | error e =>
    simpa [tryAnalyze] using
      validResult_unknown_prefix "Analysis failed due to technical error: " e
        (by decide) (by decide)
  | ok txt =>
    cases hx : extractAndValidateJson txt with
    | error e =>
      simpa [tryAnalyze, hx] using
        validResult_unknown_prefix "Analysis failed due to technical error: " e.msg
          (by decide) (by decide)
    | ok r0 =>
      simpa [tryAnalyze, hx] using ruleOverride_preserves_valid c r0 (extract_ok_valid txt r0 hx)

/-- C2: every path of the pipeline that produces a ComplianceResult — the
success path through extraction and Pydantic construction, the rule-override
path (which mutates an already-constructed result), and every fallback path,
including the `analyze_clause` exception handler — yields a result whose
status and risk level are canonical, whose reason is ≥ 5 characters and
non-blank after trimming, and whose confidence score lies in [0, 1]. -/
theorem complianceResult_paths_valid :
    (∀ t r, extractAndValidateJson t = .ok r → validResult r = true) ∧
    (∀ c r, validResult r = true → validResult (applyRuleBasedChecks c r) = true) ∧
    (∀ st c llm r st', analyzeClause st c llm = .ok (r, st') → validResult r = true) := by
  refine ⟨extract_ok_valid, ruleOverride_preserves_valid, ?_⟩
  intro st c llm r st' h
  unfold analyzeClause at h
  cases hs : st.search c 2 with
  | error e => rw [hs] at h; exact absurd h (by simp)
  | ok items =>
    rw [hs] at h
    simp only [Except.ok.injEq, Prod.mk.injEq] at h
    rw [← h.1]
    exact tryAnalyze_valid c llm

/-- Witness for C2: the no-JSON fallback of extraction is a valid result. -/
theorem complianceResult_paths_valid_witness :
    validResult ⟨"Unknown", "LLM did not return structured output", "Unknown", 0⟩ = true :=
  complianceResult_paths_valid.1 "no json" ⟨"Unknown", "LLM did not return structured output", "Unknown", 0⟩ (by rfl)

/-! ## C7 / C8: confidence-score handling and missing-field annotation -/

theorem normalizeReason_ok_of_str (d : Dict) (h : strOrAbsent d "reason") :
    ∃ d1, normalizeReason d = .ok d1 ∧
      (∀ f, f ≠ "reason" → dictGet d1 f = dictGet d f) ∧
      (dictGet d1 "reason").isNone = (dictGet d "reason").isNone := by
  unfold normalizeReason
  cases hd : dictGet d "reason" with
  | none => exact ⟨d, rfl, fun f _ => rfl, by rw [hd]⟩
  | some v =>
    obtain ⟨s, rfl⟩ := h v hd
    refine ⟨_, rfl, ?_, ?_⟩
    · intro f hf
      exact dictGet_dictSet_ne d "reason" f _ (fun he => hf he.symm)
    · rw [dictGet_dictSet_same]
      rfl

theorem normalizeStatus_ok_of_str (d : Dict) (h : strOrAbsent d "compliance_status") :
    ∃ d1, normalizeStatus d = .ok d1 ∧
      (∀ f, f ≠ "compliance_status" → dictGet d1 f = dictGet d f) ∧
      (dictGet d1 "compliance_status").isNone = (dictGet d "compliance_status").isNone := by
  cases hd : dictGet d "compliance_status" with
  | none => exact ⟨d, by simp [normalizeStatus, hd], fun f _ => rfl, by rw [hd]⟩
  | some v =>
    obtain ⟨s, rfl⟩ := h v hd
    simp only [normalizeStatus, hd]
    split_ifs <;>
      first
        | exact ⟨d, rfl, fun f _ => rfl, by rw [hd]⟩
        | (refine ⟨_, rfl, ?_, ?_⟩
           · intro f hf
             exact dictGet_dictSet_ne d "compliance_status" f _ (fun he => hf he.symm)
           · rw [dictGet_dictSet_same]
             rfl)

theorem normalizeRisk_ok_of_str (d : Dict) (h : strOrAbsent d "risk_level") :
    ∃ d1, normalizeRisk d = .ok d1 ∧
      (∀ f, f ≠ "risk_level" → dictGet d1 f = dictGet d f) ∧
      (dictGet d1 "risk_level").isNone = (dictGet d "risk_level").isNone := by
  cases hd : dictGet d "risk_level" with
  | none => exact ⟨d, by simp [normalizeRisk, hd], fun f _ => rfl, by rw [hd]⟩
  | some v =>
    obtain ⟨s, rfl⟩ := h v hd
    simp only [normalizeRisk, hd]
    split_ifs <;>
      first
        | exact ⟨d, rfl, fun f _ => rfl, by rw [hd]⟩
        | (refine ⟨_, rfl, ?_, ?_⟩
           · intro f hf
             exact dictGet_dictSet_ne d "risk_level" f _ (fun he => hf he.symm)
           · rw [dictGet_dictSet_same]
             rfl)

theorem normalizeRaw_ok (d : Dict) (h1 : strOrAbsent d "reason")
    (h2 : strOrAbsent d "compliance_status") (h3 : strOrAbsent d "risk_level") :
    ∃ d', normalizeRaw d = .ok d' ∧
      dictGet d' "confidence_score" = dictGet d "confidence_score" ∧
      (∀ f, (dictGet d' f).isNone = (dictGet d f).isNone) := by
  obtain ⟨d1, e1, p1, q1⟩ := normalizeReason_ok_of_str d h1
  have h2' : strOrAbsent d1 "compliance_status" := by
    intro v hv
    exact h2 v (by rw [← p1 "compliance_status" (by decide)]; exact hv)
  obtain ⟨d2, e2, p2, q2⟩ := normalizeStatus_ok_of_str d1 h2'
  have h3' : strOrAbsent d2 "risk_level" := by
    intro v hv
    apply h3 v
    rw [← p1 "risk_level" (by decide), ← p2 "risk_level" (by decide)]
    exact hv
  obtain ⟨d3, e3, p3, q3⟩ := normalizeRisk_ok_of_str d2 h3'
  have none1 : ∀ f, (dictGet d1 f).isNone = (dictGet d f).isNone := by
    intro f
    by_cases hf : f = "reason"
    · subst hf; exact q1
    · rw [p1 f hf]
  have none2 : ∀ f, (dictGet d2 f).isNone = (dictGet d1 f).isNone := by
    intro f
    by_cases hf : f = "compliance_status"
    · subst hf; exact q2
    · rw [p2 f hf]
  have none3 : ∀ f, (dictGet d3 f).isNone = (dictGet d2 f).isNone := by
    intro f
    by_cases hf : f = "risk_level"
    · subst hf; exact q3
    · rw [p3 f hf]
  refine ⟨d3, ?_, ?_, ?_⟩
  · simp [normalizeRaw, e1, e2, e3, Except.bind, Bind.bind]
  · rw [p3 "confidence_score" (by decide), p2 "confidence_score" (by decide),
      p1 "confidence_score" (by decide)]
  · intro f
    rw [none3 f, none2 f, none1 f]

theorem requiredField_missing (d : Dict) (f : String)
    (check : JsonVal → Except (String × String) α) (h : dictGet d f = none) :
    requiredField d f check = .error (f, "field required") := by
  unfold requiredField
  rw [h]

theorem validateScore_num_error (q : ℚ) (hq : 1 < q ∨ q < 0) :
    ∃ e, validateScore (.num q) = .error e ∧ e.1 = "confidence_score" := by
  by_cases h0 : q < 0
  · refine ⟨("confidence_score", "ensure this value is greater than or equal to 0.0"), ?_, rfl⟩
    simp [validateScore, h0]
  · have h1 : 1 < q := by
      rcases hq with h | h
      · exact h
      · exact absurd h h0
    refine ⟨("confidence_score", "ensure this value is less than or equal to 1.0"), ?_, rfl⟩
    simp [validateScore, h0, h1]

theorem validateScore_num_ok (q x : ℚ) (h : validateScore (.num q) = .ok x) : x = q := by
  simp only [validateScore] at h
  by_cases h0 : q < 0
  · rw [if_pos h0] at h; exact absurd h (by simp)
  · rw [if_neg h0] at h
    by_cases h1 : 1 < q
    · rw [if_pos h1] at h; exact absurd h (by simp)
    · rw [if_neg h1] at h
      cases h
      rfl

theorem validateScore_str_error (s : String) (hf : pyFloatOfString s = none) :
    validateScore (.str s) = .error ("confidence_score", "value is not a valid float") := by
  simp [validateScore, hf]

/-- If the score field validation fails, Pydantic construction fails,
collecting the error after those of the three preceding fields. -/
theorem pydValidate_error_of_score (d' : Dict) (e : String × String)
    (hsc : requiredField d' "confidence_score" validateScore = .error e) :
    pydValidate d' = .error
      (errsOf (requiredField d' "compliance_status" validateStatus) ++
       errsOf (requiredField d' "reason" validateReason) ++
       errsOf (requiredField d' "risk_level" validateRisk) ++ [e]) := by
  unfold pydValidate
  rw [hsc]
  rcases hA : requiredField d' "compliance_status" validateStatus with x1 | y1 <;>
    rcases hB : requiredField d' "reason" validateReason with x2 | y2 <;>
    rcases hC : requiredField d' "risk_level" validateRisk with x3 | y3 <;>
    simp [errsOf]

theorem processObj_fallback (d d' : Dict) (errs : List (String × String))
    (hn : normalizeRaw d = .ok d') (hp : pydValidate d' = .error errs) :
    processObj d = .ok ⟨"Unknown", "Validation failed: " ++ joinErrs errs, "Unknown", 0⟩ := by
  simp [processObj, hn, hp]

theorem pydValidate_ok_score (d : Dict) (r : ComplianceResult)
    (h : pydValidate d = .ok r) :
    requiredField d "confidence_score" validateScore = .ok r.confidence_score := by
  unfold pydValidate at h
  rcases hS : requiredField d "compliance_status" validateStatus with e1 | a <;>
    rw [hS] at h
  · exact absurd h (by simp)
  rcases hR : requiredField d "reason" validateReason with e2 | b <;>
    rw [hR] at h
  · exact absurd h (by simp)
  rcases hK : requiredField d "risk_level" validateRisk with e3 | c <;>
    rw [hK] at h
  · exact absurd h (by simp)
  rcases hQ : requiredField d "confidence_score" validateScore with e4 | q <;>
    rw [hQ] at h
  · exact absurd h (by simp)
  simp only [Except.ok.injEq] at h
  subst h
  rfl

/-- C7 amended: normalization leaves `confidence_score` to Pydantic.  A
numeric value that the whole object validates with is kept exactly (no
clamping); a numeric value outside [0, 1], or a string that fails `float()`
coercion, makes validation fail, and extraction returns the canonical
Unknown fallback (confidence_score 0.0, reason prefixed "Validation
failed: ") instead of clamping or defaulting in place. -/
theorem confidence_score_validation (d : Dict)
    (h1 : strOrAbsent d "reason") (h2 : strOrAbsent d "compliance_status")
    (h3 : strOrAbsent d "risk_level") :
    (∀ q, dictGet d "confidence_score" = some (.num q) → 1 < q ∨ q < 0 →
      ∃ msg, processObj d = .ok ⟨"Unknown", "Validation failed: " ++ msg, "Unknown", 0⟩) ∧
    (∀ q d' r, dictGet d "confidence_score" = some (.num q) → normalizeRaw d = .ok d' →
      pydValidate d' = .ok r → r.confidence_score = q) ∧
    (∀ s, dictGet d "confidence_score" = some (.str s) → pyFloatOfString s = none →
      ∃ msg, processObj d = .ok ⟨"Unknown", "Validation failed: " ++ msg, "Unknown", 0⟩) := by
  obtain ⟨d', hn, hscore, _⟩ := normalizeRaw_ok d h1 h2 h3
  refine ⟨?_, ?_, ?_⟩
  · intro q hget hq
    have hget' : dictGet d' "confidence_score" = some (.num q) := by rw [hscore, hget]
    obtain ⟨e, he, _⟩ := validateScore_num_error q hq
    have hrf : requiredField d' "confidence_score" validateScore = .error e := by
      unfold requiredField
      rw [hget']
      exact he
    exact ⟨_, processObj_fallback d d' _ hn (pydValidate_error_of_score d' e hrf)⟩
  · intro q d'' r hget hn' hp
    have hdd : d'' = d' := by
      rw [hn] at hn'
      cases hn'
      rfl
    subst hdd
    have hget' : dictGet d'' "confidence_score" = some (.num q) := by rw [hscore, hget]
    have hsc := pydValidate_ok_score d'' r hp
    unfold requiredField at hsc
    rw [hget'] at hsc
    exact validateScore_num_ok q r.confidence_score hsc
  · intro s hget hfl
    have hget' : dictGet d' "confidence_score" = some (.str s) := by rw [hscore, hget]
    have hrf : requiredField d' "confidence_score" validateScore =
        .error ("confidence_score", "value is not a valid float") := by
      unfold requiredField
      rw [hget']
      exact validateScore_str_error s hfl
    exact ⟨_, processObj_fallback d d' _ hn (pydValidate_error_of_score d' _ hrf)⟩

/-- Witness for C7 at the concrete object with score 1.5. -/
theorem confidence_score_validation_witness :
    (1 < (1.5 : ℚ) ∨ (1.5 : ℚ) < 0) ∧
    (∃ msg, processObj
        [("compliance_status", .str "Compliant"), ("reason", .str "clause looks fine"),
         ("risk_level", .str "Low"), ("confidence_score", .num 1.5)] =
      .ok ⟨"Unknown", "Validation failed: " ++ msg, "Unknown", 0⟩) :=
  ⟨Or.inl (by norm_num),
   (confidence_score_validation
      [("compliance_status", .str "Compliant"), ("reason", .str "clause looks fine"),
       ("risk_level", .str "Low"), ("confidence_score", .num 1.5)]
      (fun v h => ⟨"clause looks fine", (Option.some.inj h).symm⟩)
      (fun v h => ⟨"Compliant", (Option.some.inj h).symm⟩)
      (fun v h => ⟨"Low", (Option.some.inj h).symm⟩)).1
     1.5 rfl (Or.inl (by norm_num))⟩

/-! ## C8: missing required fields -/

theorem joinStrs_mem_decomp (sep x : String) (l : List String) (h : x ∈ l) :
    ∃ a b, joinStrs sep l = a ++ x ++ b := by
  induction l with
  | nil => cases h
  | cons y ys ih =>
    rcases List.mem_cons.mp h with rfl | h'
    · cases ys with
      | nil => exact ⟨"", "", by simp [joinStrs]⟩
      | cons z zs =>
        refine ⟨"", sep ++ joinStrs sep (z :: zs), ?_⟩
        simp [joinStrs, String.append_assoc]
    · cases ys with
      | nil => cases h'
      | cons z zs =>
        obtain ⟨a, b, hab⟩ := ih h'
        refine ⟨y ++ sep ++ a, b, ?_⟩
        simp only [joinStrs, hab, String.append_assoc]

theorem joinErrs_contains (errs : List (String × String)) (f m : String)
    (h : (f, m) ∈ errs) : strContains (joinErrs errs) f = true := by
  have hmem : (f ++ ": " ++ m) ∈ errs.map (fun e => e.1 ++ ": " ++ e.2) :=
    List.mem_map.mpr ⟨(f, m), h, rfl⟩
  obtain ⟨a, b, hab⟩ := joinStrs_mem_decomp "; " _ _ hmem
  have key : joinErrs errs = (a ++ f) ++ (": " ++ m ++ b) := by
    rw [joinErrs, hab]
    simp [String.append_assoc]
  rw [key]
  exact strContains_of_decomp a f (": " ++ m ++ b)

theorem pydValidate_ok_present (d : Dict) (r : ComplianceResult)
    (h : pydValidate d = .ok r) (f : String) (hf : f ∈ requiredFields) :
    (dictGet d f).isSome = true := by
  unfold pydValidate at h
  rcases hS : requiredField d "compliance_status" validateStatus with e1 | a <;>
    rw [hS] at h
  · exact absurd h (by simp)
  rcases hR : requiredField d "reason" validateReason with e2 | b <;>
    rw [hR] at h
  · exact absurd h (by simp)
  rcases hK : requiredField d "risk_level" validateRisk with e3 | c <;>
    rw [hK] at h
  · exact absurd h (by simp)
  rcases hQ : requiredField d "confidence_score" validateScore with e4 | q <;>
    rw [hQ] at h
  · exact absurd h (by simp)
  fin_cases hf
  · obtain ⟨v, hv, _⟩ := requiredField_ok _ _ _ _ hS
    simp [hv]
  · obtain ⟨v, hv, _⟩ := requiredField_ok _ _ _ _ hR
    simp [hv]
  · obtain ⟨v, hv, _⟩ := requiredField_ok _ _ _ _ hK
    simp [hv]
  · obtain ⟨v, hv, _⟩ := requiredField_ok _ _ _ _ hQ
    simp [hv]

theorem pydValidate_missing_mem (d' : Dict) (errs : List (String × String))
    (hp : pydValidate d' = .error errs) (f : String) (hf : f ∈ requiredFields)
    (hmiss : dictGet d' f = none) : (f, "field required") ∈ errs := by
  unfold pydValidate at hp
  fin_cases hf
  · rw [requiredField_missing d' "compliance_status" validateStatus hmiss] at hp
    rcases hB : requiredField d' "reason" validateReason with x2 | y2 <;>
      rcases hC : requiredField d' "risk_level" validateRisk with x3 | y3 <;>
      rcases hD : requiredField d' "confidence_score" validateScore with x4 | y4 <;>
      rw [hB, hC, hD] at hp <;> cases hp <;> simp [errsOf]
  · rw [requiredField_missing d' "reason" validateReason hmiss] at hp
    rcases hA : requiredField d' "compliance_status" validateStatus with x1 | y1 <;>
      rcases hC : requiredField d' "risk_level" validateRisk with x3 | y3 <;>
      rcases hD : requiredField d' "confidence_score" validateScore with x4 | y4 <;>
      rw [hA, hC, hD] at hp <;> cases hp <;> simp [errsOf]
  · rw [requiredField_missing d' "risk_level" validateRisk hmiss] at hp
    rcases hA : requiredField d' "compliance_status" validateStatus with x1 | y1 <;>
      rcases hB : requiredField d' "reason" validateReason with x2 | y2 <;>
      rcases hD : requiredField d' "confidence_score" validateScore with x4 | y4 <;>
      rw [hA, hB, hD] at hp <;> cases hp <;> simp [errsOf]
  · rw [requiredField_missing d' "confidence_score" validateScore hmiss] at hp
    rcases hA : requiredField d' "compliance_status" validateStatus with x1 | y1 <;>
      rcases hB : requiredField d' "reason" validateReason with x2 | y2 <;>
      rcases hC : requiredField d' "risk_level" validateRisk with x3 | y3 <;>
      rw [hA, hB, hC] at hp <;> cases hp <;> simp [errsOf]

/-- C8 amended: when one or more required fields are absent, extraction
returns the *canonical* Unknown fallback whose reason names every missing
field ("<field>: field required"); the valid values that were present in
the parsed object are not preserved — risk_level comes back "Unknown" and
confidence_score 0.0. -/
theorem missing_fields_annotated (d : Dict)
    (h1 : strOrAbsent d "reason") (h2 : strOrAbsent d "compliance_status")
    (h3 : strOrAbsent d "risk_level") (hm : missingFields d ≠ []) :
    ∃ msg, processObj d = .ok ⟨"Unknown", "Validation failed: " ++ msg, "Unknown", 0⟩ ∧
      ∀ f ∈ missingFields d, strContains msg f = true := by
  obtain ⟨d', hn, _, hnone⟩ := normalizeRaw_ok d h1 h2 h3
  have hmiss' : ∀ f ∈ missingFields d, dictGet d' f = none := by
    intro f hf
    have : (dictGet d f).isNone = true := (List.mem_filter.mp hf).2
    exact Option.isNone_iff_eq_none.mp (by rw [hnone f]; exact this)
  obtain ⟨f0, hf0⟩ := List.exists_mem_of_ne_nil _ hm
  have hf0req : f0 ∈ requiredFields := (List.mem_filter.mp hf0).1
  cases hp : pydValidate d' with
  | ok r =>
    have := pydValidate_ok_present d' r hp f0 hf0req
    rw [hmiss' f0 hf0] at this
    exact absurd this (by simp)
  | error errs =>
    refine ⟨joinErrs errs, processObj_fallback d d' errs hn hp, ?_⟩
    intro f hf
    exact joinErrs_contains errs f "field required"
      (pydValidate_missing_mem d' errs hp f (List.mem_filter.mp hf).1 (hmiss' f hf))

/-- Witness for C8 at an object missing `compliance_status`. -/
theorem missing_fields_annotated_witness :
    missingFields
        [("risk_level", .str "High"), ("reason", .str "valid reason here"),
         ("confidence_score", .num 0.5)] ≠ [] ∧
    (∃ msg, processObj
        [("risk_level", .str "High"), ("reason", .str "valid reason here"),
         ("confidence_score", .num 0.5)] =
        .ok ⟨"Unknown", "Validation failed: " ++ msg, "Unknown", 0⟩ ∧
      ∀ f ∈ missingFields
          [("risk_level", .str "High"), ("reason", .str "valid reason here"),
           ("confidence_score", .num 0.5)], strContains msg f = true) :=
  ⟨by decide,
   missing_fields_annotated
     [("risk_level", .str "High"), ("reason", .str "valid reason here"),
      ("confidence_score", .num 0.5)]
     (fun v h => ⟨"valid reason here", (Option.some.inj h).symm⟩)
     (fun v h => by exact absurd h (by simp [dictGet]))
     (fun v h => ⟨"High", (Option.some.inj h).symm⟩)
     (by decide)⟩

/-! ## C4: search ordering and padding -/

theorem mapM_option_eq_map (f : α → Option β) (g : α → β) (l : List α)
    (h : ∀ x ∈ l, f x = some (g x)) : l.mapM f = some (l.map g) := by
  induction l with
  | nil => rfl
  | cons x xs ih =>
    rw [List.mapM_cons, h x (List.mem_cons_self x xs),
      ih (fun y hy => h y (List.mem_cons_of_mem x hy))]
    rfl

theorem get?_eq_some_getD (l : List α) (i : Nat) (d : α) (h : i < l.length) :
    l.get? i = some (l.getD i d) := by
  rw [List.get?_eq_get h]
  congr 1
  rw [List.getD_eq_getElem?_getD, List.getElem?_eq_getElem h]
  rfl

theorem rankAll_length (db : List (List ℚ)) (q : List ℚ) :
    (rankAll db q).length = db.length := by
  have := (List.perm_insertionSort (faissRel db q) (List.range db.length)).length_eq
  rw [rankAll]
  rw [this, List.length_range]

theorem rankAll_mem_lt (db : List (List ℚ)) (q : List ℚ) (i : Nat)
    (h : i ∈ rankAll db q) : i < db.length := by
  have := (List.perm_insertionSort (faissRel db q) (List.range db.length)).mem_iff.mp h
  exact List.mem_range.mp this

/-- C4 amended: on a built store, `search` ranks the ids by increasing
distance to the query embedding with ties broken by insertion id.  For
`k ≤ n` it returns the first `k` ranked clauses.  For `k > n` (n ≥ 1) faiss
pads with id `-1` and Python maps `metadata[-1]` to the *last* clause: the
result is all `n` clauses in ranked order followed by `k − n` copies of the
last-inserted clause — not "exactly all the indexed clauses", and the padded
tail breaks the distance ordering. -/
theorem search_order_and_padding (enc : String → List ℚ) (metadata : List RawItem)
    (db : List (List ℚ)) (qt : String) (k : Nat)
    (hlen : db.length = metadata.length) (hn : 1 ≤ metadata.length) :
    (rankAll db (enc qt)).Perm (List.range db.length) ∧
    List.Pairwise (faissRel db (enc qt)) (rankAll db (enc qt)) ∧
    (k ≤ metadata.length →
      RegulationVectorStore.search ⟨some enc, metadata, db⟩ qt k =
        .ok (((rankAll db (enc qt)).take k).map (fun i => metadata.getD i []))) ∧
    (metadata.length < k →
      RegulationVectorStore.search ⟨some enc, metadata, db⟩ qt k =
        .ok ((rankAll db (enc qt)).map (fun i => metadata.getD i []) ++
          List.replicate (k - metadata.length) (metadata.getD (metadata.length - 1) []))) := by
  have hperm : (rankAll db (enc qt)).Perm (List.range db.length) :=
    List.perm_insertionSort (faissRel db (enc qt)) (List.range db.length)
  have hsorted : List.Pairwise (faissRel db (enc qt)) (rankAll db (enc qt)) :=
    List.sorted_insertionSort (faissRel db (enc qt)) (List.range db.length)
  have hlenr : (rankAll db (enc qt)).length = db.length := rankAll_length db (enc qt)
  refine ⟨hperm, hsorted, ?_, ?_⟩
  · -- k ≤ n: exactly the first k ranked clauses, no padding
    intro hk
    unfold RegulationVectorStore.search
    simp only [faissSearch]
    have htklen : ((rankAll db (enc qt)).take k).length = k := by
      rw [List.length_take, hlenr, hlen]
      omega
    rw [htklen, Nat.sub_self, List.replicate_zero, List.append_nil]
    have hmap : ((((rankAll db (enc qt)).take k).map Int.ofNat).mapM
          (fun i => pyGet metadata i)) =
        some ((((rankAll db (enc qt)).take k).map Int.ofNat).map
          (fun i : Int => if 0 ≤ i then metadata.getD i.toNat []
            else metadata.getD (metadata.length - 1) [])) := by
      apply mapM_option_eq_map
      intro x hx
      obtain ⟨i, hi, rfl⟩ := List.mem_map.mp hx
      have hilt : i < metadata.length := by
        rw [← hlen]
        exact rankAll_mem_lt db (enc qt) i (List.mem_of_mem_take hi)
      have h0 : (0 : Int) ≤ Int.ofNat i := Int.natCast_nonneg i
      rw [pyGet, if_pos h0, if_pos h0]
      exact get?_eq_some_getD metadata i [] (by simpa using hilt)
    rw [hmap]
    rw [List.map_map]
    refine congrArg Except.ok ?_
    apply List.map_congr_left
    intro i _
    simp [Int.natCast_nonneg i]
  · -- n < k: all clauses in ranked order, then k − n copies of the last one
    intro hk
    unfold RegulationVectorStore.search
    simp only [faissSearch]
    have htk : (rankAll db (enc qt)).take k = rankAll db (enc qt) :=
      List.take_of_length_le (by omega : (rankAll db (enc qt)).length ≤ k)
    rw [htk, hlenr, hlen]
    have hmap : ((rankAll db (enc qt)).map Int.ofNat ++
          List.replicate (k - metadata.length) (-1)).mapM (fun i => pyGet metadata i) =
        some ((((rankAll db (enc qt)).map Int.ofNat ++
          List.replicate (k - metadata.length) (-1))).map
          (fun i : Int => if 0 ≤ i then metadata.getD i.toNat []
            else metadata.getD (metadata.length - 1) [])) := by
      apply mapM_option_eq_map
      intro x hx
      rcases List.mem_append.mp hx with hx1 | hx2
      · obtain ⟨i, hi, rfl⟩ := List.mem_map.mp hx1
        have hilt : i < metadata.length := by
          rw [← hlen]
          exact rankAll_mem_lt db (enc qt) i hi
        have h0 : (0 : Int) ≤ Int.ofNat i := Int.natCast_nonneg i
        rw [pyGet, if_pos h0, if_pos h0]
        exact get?_eq_some_getD metadata i [] (by simpa using hilt)
      · have hx1 : x = -1 := List.eq_of_mem_replicate hx2
        subst hx1
        have h0 : ¬ ((0 : Int) ≤ -1) := by decide
        rw [pyGet, if_neg h0, if_neg h0]
        have h1 : ((-(-1 : Int)).toNat) = 1 := by decide
        rw [h1, if_pos hn]
        exact get?_eq_some_getD metadata (metadata.length - 1) [] (by omega)
    rw [hmap]
    rw [List.map_append, List.map_map, List.map_replicate]
    refine congrArg Except.ok ?_
    congr 1

/-- Witness for C4 on a concrete two-clause store with `k = 2`. -/
theorem search_order_and_padding_witness :
    ([[(0 : ℚ)], [10]] : List (List ℚ)).length =
      ([[("clause_id", "c0")], [("clause_id", "c1")]] : List RawItem).length ∧
    1 ≤ ([[("clause_id", "c0")], [("clause_id", "c1")]] : List RawItem).length ∧
    ((rankAll [[(0 : ℚ)], [10]] [10]).Perm (List.range 2) ∧
     List.Pairwise (faissRel [[(0 : ℚ)], [10]] [10]) (rankAll [[(0 : ℚ)], [10]] [10]) ∧
     (2 ≤ 2 →
       RegulationVectorStore.search
           ⟨some (fun _ => [10]), [[("clause_id", "c0")], [("clause_id", "c1")]],
            [[(0 : ℚ)], [10]]⟩ "q" 2 =
         .ok (((rankAll [[(0 : ℚ)], [10]] [10]).take 2).map
           (fun i => ([[("clause_id", "c0")], [("clause_id", "c1")]] : List RawItem).getD i []))) ∧
     (2 < 2 →
       RegulationVectorStore.search
           ⟨some (fun _ => [10]), [[("clause_id", "c0")], [("clause_id", "c1")]],
            [[(0 : ℚ)], [10]]⟩ "q" 2 =
         .ok ((rankAll [[(0 : ℚ)], [10]] [10]).map
             (fun i => ([[("clause_id", "c0")], [("clause_id", "c1")]] : List RawItem).getD i []) ++
           List.replicate (2 - 2)
             (([[("clause_id", "c0")], [("clause_id", "c1")]] : List RawItem).getD 1 [])))) :=
  ⟨rfl, by decide,
   search_order_and_padding (fun _ => [10])
     [[("clause_id", "c0")], [("clause_id", "c1")]] [[(0 : ℚ)], [10]] "q" 2 rfl (by decide)⟩

/-! ## C9: round-trip of a canonical result through serialization -/

theorem strMk_data (s : String) : String.mk s.data = s := by
  cases s
  rfl

theorem scanBody_clean (interior : List Char)
    (h : ∀ c ∈ interior, c ≠ lbrace ∧ c ≠ rbrace) :
    scanBody false (interior ++ [rbrace]) = some (interior ++ [rbrace]) := by
  induction interior with
  | nil => simp [scanBody]
  | cons c cs ih =>
    have hc := h c (List.mem_cons_self c cs)
    have ih' := ih (fun a ha => h a (List.mem_cons_of_mem c ha))
    simp [scanBody, hc.1, hc.2, ih']

theorem findCandidateAux_whole (interior : List Char)
    (h : ∀ c ∈ interior, c ≠ lbrace ∧ c ≠ rbrace) :
    findCandidateAux (lbrace :: interior ++ [rbrace]) =
      some (lbrace :: interior ++ [rbrace]) := by
  simp [findCandidateAux, scanBody_clean interior h]

set_option maxRecDepth 2000 in
theorem escU_length (a b e3 d : Char) (rest : List Char) (u : Char) (r : List Char)
    (h : escU a b e3 d rest = .ok (u, r)) : r.length ≤ rest.length := by
  unfold escU at h
  rcases hc : hexComb a b e3 d with _ | n
  · rw [hc] at h; simp at h
  · rw [hc] at h
    simp only [] at h
    by_cases hn1 : 55296 ≤ n ∧ n ≤ 56319
    · rw [if_pos hn1] at h
      rcases rest with _ | ⟨x, _ | ⟨y, _ | ⟨a2, _ | ⟨b2, _ | ⟨e4, _ | ⟨d2, rest2⟩⟩⟩⟩⟩⟩
      · simp at h
      · simp at h
      · simp at h
      · simp at h
      · simp at h
      · simp at h
      · simp only [] at h
        by_cases hxy : x = '\\' ∧ y = 'u'
        · rw [if_pos hxy] at h
          rcases hc2 : hexComb a2 b2 e4 d2 with _ | m
          · rw [hc2] at h; simp at h
          · rw [hc2] at h
            simp only [] at h
            by_cases hm : 56320 ≤ m ∧ m ≤ 57343
            · rw [if_pos hm] at h
              injection h with h2
              injection h2 with h3 h4
              subst h4
              simp only [List.length_cons]
              omega
            · rw [if_neg hm] at h; cases h
        · rw [if_neg hxy] at h; cases h
    · rw [if_neg hn1] at h
      by_cases hn2 : 56320 ≤ n ∧ n ≤ 57343
      · rw [if_pos hn2] at h; cases h
      · rw [if_neg hn2] at h
        injection h with h2
        injection h2 with h3 h4
        subst h4
        exact Nat.le_refl _

set_option maxRecDepth 2000 in
theorem escScan_length (l : List Char) (u : Char) (r : List Char)
    (h : escScan l = .ok (u, r)) : r.length ≤ l.length := by
  cases l with
  | nil => simp [escScan] at h
  | cons e rest =>
    simp only [escScan] at h
    by_cases hu : e = 'u'
    · rw [if_pos hu] at h
      rcases rest with _ | ⟨a, _ | ⟨b, _ | ⟨e3, _ | ⟨d, rest2⟩⟩⟩⟩
      · simp at h
      · simp at h
      · simp at h
      · simp at h
      · simp only [] at h
        have hle := escU_length a b e3 d rest2 u r h
        simp only [List.length_cons]
        omega
    · rw [if_neg hu] at h
      rcases hu2 : unescapeChar e with _ | u2
      · rw [hu2] at h; simp at h
      · rw [hu2] at h
        cases h
        simp only [List.length_cons]
        omega

theorem strScanF_eq : ∀ f g l, l.length ≤ f → l.length ≤ g → strScanF f l = strScanF g l := by
  intro f
  induction f with
  | zero =>
    intro g l hf hg
    have : l = [] := by
      cases l
      · rfl
      · simp at hf
    subst this
    cases g <;> rfl
  | succ f ih =>
    intro g l hf hg
    cases l with
    | nil => cases g <;> rfl
    | cons c rest =>
      obtain ⟨g2, rfl⟩ : ∃ g2, g = g2 + 1 := by
        cases g
        · simp at hg
        · exact ⟨_, rfl⟩
      simp only [strScanF]
      by_cases h1 : c = '"'
      · simp [h1]
      by_cases h2 : c = '\\'
      · simp only [if_neg h1, if_pos h2]
        rcases hesc : escScan rest with msg | ⟨u, rest2⟩
        · rfl
        · have hlen := escScan_length rest u rest2 hesc
          simp only [List.length_cons] at hf hg
          simp only [ih g2 rest2 (by omega) (by omega)]
      by_cases h3 : c.toNat < 32
      · simp [if_neg h1, if_neg h2, if_pos h3]
      · simp only [if_neg h1, if_neg h2, if_neg h3]
        simp only [List.length_cons] at hf hg
        rw [ih g2 rest (by omega) (by omega)]

theorem strScan_quote (rest : List Char) : strScan ('"' :: rest) = .ok ([], rest) := by
  simp [strScan, strScanF]

theorem strScan_literal (c : Char) (rest : List Char) (h1 : c ≠ '"') (h2 : c ≠ '\\')
    (h3 : ¬ c.toNat < 32) :
    strScan (c :: rest) = (strScan rest).map (fun p => (c :: p.1, p.2)) := by
  simp only [strScan, List.length_cons, strScanF, if_neg h1, if_neg h2, if_neg h3]

theorem strScan_esc (rest : List Char) (u : Char) (rest2 : List Char)
    (he : escScan rest = .ok (u, rest2)) :
    strScan ('\\' :: rest) = (strScan rest2).map (fun p => (u :: p.1, p.2)) := by
  have hlen := escScan_length rest u rest2 he
  simp only [strScan, List.length_cons, strScanF, he]
  rw [strScanF_eq rest.length rest2.length rest2 (by omega) (by omega)]
  rfl

theorem escScan_single (e u : Char) (tail : List Char) (hu : e ≠ 'u')
    (he : unescapeChar e = some u) : escScan (e :: tail) = .ok (u, tail) := by
  simp only [escScan, if_neg hu, he]

theorem escScan_u (d1 d2 d3 d4 : Char) (n : Nat) (tail : List Char)
    (hcomb : hexComb d1 d2 d3 d4 = some n)
    (hs1 : ¬ (55296 ≤ n ∧ n ≤ 56319)) (hs2 : ¬ (56320 ≤ n ∧ n ≤ 57343)) :
    escScan ('u' :: d1 :: d2 :: d3 :: d4 :: tail) = .ok (Char.ofNat n, tail) := by
  simp +decide only [escScan, escU, hcomb, if_neg hs1, if_neg hs2, if_true]

theorem escScan_pair (d1 d2 d3 d4 e1 e2 e3x e4x : Char) (n m : Nat) (tail : List Char)
    (hcomb1 : hexComb d1 d2 d3 d4 = some n) (hn : 55296 ≤ n ∧ n ≤ 56319)
    (hcomb2 : hexComb e1 e2 e3x e4x = some m) (hm : 56320 ≤ m ∧ m ≤ 57343) :
    escScan ('u' :: d1 :: d2 :: d3 :: d4 :: '\\' :: 'u' :: e1 :: e2 :: e3x :: e4x :: tail) =
      .ok (Char.ofNat (65536 + (n - 55296) * 1024 + (m - 56320)), tail) := by
  simp +decide only [escScan, escU, hcomb1, hcomb2, if_pos hn, if_pos hm, if_true]

theorem hexVal_hexDigit (k : Nat) (h : k < 16) : hexVal (hexDigit k) = some k := by
  interval_cases k <;> decide

theorem hexComb_hex4 (n : Nat) (h : n < 65536) :
    hexComb (hexDigit (n / 4096 % 16)) (hexDigit (n / 256 % 16))
      (hexDigit (n / 16 % 16)) (hexDigit (n % 16)) = some n := by
  have h1 := hexVal_hexDigit (n / 4096 % 16) (Nat.mod_lt _ (by omega))
  have h2 := hexVal_hexDigit (n / 256 % 16) (Nat.mod_lt _ (by omega))
  have h3 := hexVal_hexDigit (n / 16 % 16) (Nat.mod_lt _ (by omega))
  have h4 := hexVal_hexDigit (n % 16) (Nat.mod_lt _ (by omega))
  simp only [hexComb, h1, h2, h3, h4]
  congr 1
  omega

theorem char_not_surrogate (c : Char) :
    c.toNat < 55296 ∨ (57343 < c.toNat ∧ c.toNat < 1114112) := by
  have h : Nat.isValidChar c.toNat := by
    have h0 := c.valid
    unfold UInt32.isValidChar at h0
    exact h0
  unfold Nat.isValidChar at h
  exact h

theorem strScan_jsonEscape (l : List Char) :
    ∀ rest, strScan (jsonEscapeList l ++ '"' :: rest) = .ok (l, rest) := by
  induction l with
  | nil =>
    intro rest
    rw [show jsonEscapeList [] = [] from rfl, List.nil_append]
    exact strScan_quote rest
  | cons c cs ih =>
    intro rest
    have iht : strScan (jsonEscapeList cs ++ '"' :: rest) = .ok (cs, rest) := ih rest
    have hj : jsonEscapeList (c :: cs) = jsonEscapeChar c ++ jsonEscapeList cs := by
      simp [jsonEscapeList]
    rw [hj, List.append_assoc]
    by_cases h1 : c = '"'
    · subst h1
      rw [show jsonEscapeChar '"' = ['\\', '"'] from by decide]
      simp only [List.cons_append, List.nil_append]
      rw [strScan_esc _ _ _ (escScan_single '"' '"' _ (by decide) (by decide)), iht]
      rfl
    by_cases h2 : c = '\\'
    · subst h2
      rw [show jsonEscapeChar '\\' = ['\\', '\\'] from by decide]
      simp only [List.cons_append, List.nil_append]
      rw [strScan_esc _ _ _ (escScan_single '\\' '\\' _ (by decide) (by decide)), iht]
      rfl
    by_cases h3 : c = '\n'
    · subst h3
      rw [show jsonEscapeChar '\n' = ['\\', 'n'] from by decide]
      simp only [List.cons_append, List.nil_append]
      rw [strScan_esc _ _ _ (escScan_single 'n' '\n' _ (by decide) (by decide)), iht]
      rfl
    by_cases h4 : c = '\r'
    · subst h4
      rw [show jsonEscapeChar '\r' = ['\\', 'r'] from by decide]
      simp only [List.cons_append, List.nil_append]
      rw [strScan_esc _ _ _ (escScan_single 'r' '\r' _ (by decide) (by decide)), iht]
      rfl
    by_cases h5 : c = '\t'
    · subst h5
      rw [show jsonEscapeChar '\t' = ['\\', 't'] from by decide]
      simp only [List.cons_append, List.nil_append]
      rw [strScan_esc _ _ _ (escScan_single 't' '\t' _ (by decide) (by decide)), iht]
      rfl
    by_cases h6 : c.toNat = 8
    · have hc : c = Char.ofNat 8 := by
        rw [← Char.ofNat_toNat c, h6]
      subst hc
      rw [show jsonEscapeChar (Char.ofNat 8) = ['\\', 'b'] from by decide]
      simp only [List.cons_append, List.nil_append]
      rw [strScan_esc _ _ _ (escScan_single 'b' (Char.ofNat 8) _ (by decide) (by decide)), iht]
      rfl
    by_cases h7 : c.toNat = 12
    · have hc : c = Char.ofNat 12 := by
        rw [← Char.ofNat_toNat c, h7]
      subst hc
      rw [show jsonEscapeChar (Char.ofNat 12) = ['\\', 'f'] from by decide]
      simp only [List.cons_append, List.nil_append]
      rw [strScan_esc _ _ _ (escScan_single 'f' (Char.ofNat 12) _ (by decide) (by decide)), iht]
      rfl
    by_cases h8 : 32 ≤ c.toNat ∧ c.toNat ≤ 126
    · rw [show jsonEscapeChar c = [c] from by
        simp only [jsonEscapeChar, if_neg h1, if_neg h2, if_neg h3, if_neg h4, if_neg h5,
          if_neg h6, if_neg h7, if_pos h8]]
      simp only [List.cons_append, List.nil_append]
      rw [strScan_literal c _ h1 h2 (by omega), iht]
      rfl
    by_cases h9 : c.toNat < 65536
    · have hns := char_not_surrogate c
      have hs1 : ¬ (55296 ≤ c.toNat ∧ c.toNat ≤ 56319) := by omega
      have hs2 : ¬ (56320 ≤ c.toNat ∧ c.toNat ≤ 57343) := by omega
      have hcomb := hexComb_hex4 c.toNat h9
      rw [show jsonEscapeChar c = '\\' :: 'u' :: hex4 c.toNat from by
        simp only [jsonEscapeChar, if_neg h1, if_neg h2, if_neg h3, if_neg h4, if_neg h5,
          if_neg h6, if_neg h7, if_neg h8, if_pos h9]]
      rw [hex4]
      simp only [List.cons_append, List.nil_append]
      rw [strScan_esc _ _ _ (escScan_u _ _ _ _ c.toNat _ hcomb hs1 hs2), iht]
      simp [Except.map, Char.ofNat_toNat]
    · have hns := char_not_surrogate c
      have hup : c.toNat < 1114112 := by omega
      have hcomb1 := hexComb_hex4 (55296 + (c.toNat - 65536) / 1024) (by omega)
      have hcomb2 := hexComb_hex4 (56320 + (c.toNat - 65536) % 1024) (by omega)
      have hhi : 55296 ≤ 55296 + (c.toNat - 65536) / 1024 ∧
          55296 + (c.toNat - 65536) / 1024 ≤ 56319 := by omega
      have hlo : 56320 ≤ 56320 + (c.toNat - 65536) % 1024 ∧
          56320 + (c.toNat - 65536) % 1024 ≤ 57343 := by omega
      have hval : 65536 + (55296 + (c.toNat - 65536) / 1024 - 55296) * 1024 +
          (56320 + (c.toNat - 65536) % 1024 - 56320) = c.toNat := by omega
      rw [show jsonEscapeChar c =
          '\\' :: 'u' :: hex4 (55296 + (c.toNat - 65536) / 1024) ++
            '\\' :: 'u' :: hex4 (56320 + (c.toNat - 65536) % 1024) from by
        simp only [jsonEscapeChar, if_neg h1, if_neg h2, if_neg h3, if_neg h4, if_neg h5,
          if_neg h6, if_neg h7, if_neg h8, if_neg h9]]
      simp only [hex4, List.cons_append, List.nil_append, List.append_assoc]
      rw [strScan_esc _ _ _ (escScan_pair _ _ _ _ _ _ _ _ _ _ _ hcomb1 hhi hcomb2 hlo), iht]
      simp only [Except.map]
      rw [hval, Char.ofNat_toNat]

theorem hexDigit_ne_brace (k : Nat) (h : k < 16) :
    hexDigit k ≠ lbrace ∧ hexDigit k ≠ rbrace := by
  interval_cases k <;> decide

theorem hex4_ne_brace (n : Nat) : ∀ x ∈ hex4 n, x ≠ lbrace ∧ x ≠ rbrace := by
  intro x hx
  simp only [hex4, List.mem_cons, List.not_mem_nil, or_false] at hx
  rcases hx with rfl | rfl | rfl | rfl <;>
    exact hexDigit_ne_brace _ (Nat.mod_lt _ (by omega))

/-- `json.dumps` escaping never introduces a brace. -/
theorem jsonEscapeChar_ne_brace (c : Char) (hc : c ≠ lbrace ∧ c ≠ rbrace) :
    ∀ x ∈ jsonEscapeChar c, x ≠ lbrace ∧ x ≠ rbrace := by
  intro x hx
  by_cases h1 : c = '"'
  · subst h1; simp [jsonEscapeChar] at hx
    rcases hx with rfl | rfl <;> decide
  by_cases h2 : c = '\\'
  · subst h2; simp [jsonEscapeChar] at hx
    subst hx; decide
  by_cases h3 : c = '\n'
  · subst h3; simp [jsonEscapeChar] at hx
    rcases hx with rfl | rfl <;> decide
  by_cases h4 : c = '\r'
  · subst h4; simp [jsonEscapeChar] at hx
    rcases hx with rfl | rfl <;> decide
  by_cases h5 : c = '\t'
  · subst h5; simp [jsonEscapeChar] at hx
    rcases hx with rfl | rfl <;> decide
  by_cases h6 : c.toNat = 8
  · simp only [jsonEscapeChar, if_neg h1, if_neg h2, if_neg h3, if_neg h4, if_neg h5,
      if_pos h6, List.mem_cons, List.not_mem_nil, or_false] at hx
    rcases hx with rfl | rfl <;> decide
  by_cases h7 : c.toNat = 12
  · simp only [jsonEscapeChar, if_neg h1, if_neg h2, if_neg h3, if_neg h4, if_neg h5,
      if_neg h6, if_pos h7, List.mem_cons, List.not_mem_nil, or_false] at hx
    rcases hx with rfl | rfl <;> decide
  by_cases h8 : 32 ≤ c.toNat ∧ c.toNat ≤ 126
  · simp only [jsonEscapeChar, if_neg h1, if_neg h2, if_neg h3, if_neg h4, if_neg h5,
      if_neg h6, if_neg h7, if_pos h8, List.mem_singleton] at hx
    subst hx; exact hc
  by_cases h9 : c.toNat < 65536
  · simp only [jsonEscapeChar, if_neg h1, if_neg h2, if_neg h3, if_neg h4, if_neg h5,
      if_neg h6, if_neg h7, if_neg h8, if_pos h9, List.mem_cons] at hx
    rcases hx with rfl | rfl | hx
    · decide
    · decide
    · exact hex4_ne_brace _ x hx
  · simp only [jsonEscapeChar, if_neg h1, if_neg h2, if_neg h3, if_neg h4, if_neg h5,
      if_neg h6, if_neg h7, if_neg h8, if_neg h9, List.mem_cons, List.mem_append] at hx
    rcases hx with (rfl | rfl | hx) | (rfl | rfl | hx)
    · decide
    · decide
    · exact hex4_ne_brace _ x hx
    · decide
    · decide
    · exact hex4_ne_brace _ x hx

theorem jsonEscapeList_ne_brace (l : List Char) (h : ∀ c ∈ l, c ≠ lbrace ∧ c ≠ rbrace) :
    ∀ x ∈ jsonEscapeList l, x ≠ lbrace ∧ x ≠ rbrace := by
  intro x hx
  unfold jsonEscapeList at hx
  rw [List.mem_flatten] at hx
  obtain ⟨ys, hys, hxy⟩ := hx
  rw [List.mem_map] at hys
  obtain ⟨c, hcl, rfl⟩ := hys
  exact jsonEscapeChar_ne_brace c (h c hcl) x hxy

theorem jsonEscape_data (s : String) : (jsonEscape s).data = jsonEscapeList s.data := rfl

theorem takeWhile_all_append (p : Char → Bool) (l1 : List Char) (x : Char)
    (l2 : List Char) (h1 : ∀ a ∈ l1, p a = true) (h2 : p x = false) :
    (l1 ++ x :: l2).takeWhile p = l1 ∧ (l1 ++ x :: l2).dropWhile p = x :: l2 := by
  induction l1 with
  | nil => simp [List.takeWhile, List.dropWhile, h2]
  | cons c cs ih =>
    have hc := h1 c (List.mem_cons_self c cs)
    have ih' := ih (fun a ha => h1 a (List.mem_cons_of_mem c ha))
    simp [List.takeWhile, List.dropWhile, hc, ih'.1, ih'.2]

theorem digit_ne (c x : Char) (hc : c.isDigit = true) (hx : x.isDigit = false) : c ≠ x := by
  intro he
  rw [he, hx] at hc
  cases hc

/-- Parsing the decimal token `ip "." fp` followed by the closing brace. -/
theorem numScan_decimal (ip fp : List Char)
    (hip : ip ≠ []) (hipd : ∀ c ∈ ip, c.isDigit = true)
    (hfp : fp ≠ []) (hfpd : ∀ c ∈ fp, c.isDigit = true) :
    numScan (ip ++ '.' :: fp ++ [rbrace]) =
      .ok ((digitsVal ip : ℚ) + (digitsVal fp : ℚ) / (10 : ℚ) ^ fp.length, [rbrace]) := by
  obtain ⟨c0, ip', rfl⟩ : ∃ c0 ip', ip = c0 :: ip' := by
    cases ip with
    | nil => exact absurd rfl hip
    | cons a b => exact ⟨a, b, rfl⟩
  have hc0 : c0 ≠ '-' := digit_ne c0 '-' (hipd c0 (List.mem_cons_self c0 ip')) (by decide)
  have htake := takeWhile_all_append Char.isDigit (c0 :: ip') '.' (fp ++ [rbrace]) hipd
    (by decide)
  have htake2 := takeWhile_all_append Char.isDigit fp rbrace [] hfpd (by decide)
  have hfp' : fp.isEmpty = false := by
    cases fp with
    | nil => exact absurd rfl hfp
    | cons a b => rfl
  unfold numScan
  simp only [List.cons_append, List.append_assoc] at htake htake2 ⊢
  rw [if_neg hc0]
  rw [htake.1, htake.2]
  simp [htake2.1, htake2.2, hfp', one_mul]

theorem digit_not_jsonWS (c : Char) (h : c.isDigit = true) : isJsonWS c = false := by
  unfold isJsonWS
  have h1 : c ≠ ' ' := digit_ne c ' ' h (by decide)
  have h2 : c ≠ '\t' := digit_ne c '\t' h (by decide)
  have h3 : c ≠ '\n' := digit_ne c '\n' h (by decide)
  have h4 : c ≠ '\r' := digit_ne c '\r' h (by decide)
  simp [h1, h2, h3, h4]

theorem parseVal_template (m : Nat) (sD rD yD : List Char) (S R Y : String) (ip fp : List Char)
    (hS : ∀ rest, strScan (sD ++ '"' :: rest) = .ok (S.data, rest))
    (hR : ∀ rest, strScan (rD ++ '"' :: rest) = .ok (R.data, rest))
    (hY : ∀ rest, strScan (yD ++ '"' :: rest) = .ok (Y.data, rest))
    (hip : ip ≠ []) (hipd : ∀ c ∈ ip, c.isDigit = true)
    (hfp : fp ≠ []) (hfpd : ∀ c ∈ fp, c.isDigit = true) :
    parseVal (m + 6) (lbrace :: docBody sD rD yD ip fp ++ [rbrace]) =
      .ok (.obj [("compliance_status", .str S), ("reason", .str R), ("risk_level", .str Y),
        ("confidence_score",
         .num ((digitsVal ip : ℚ) + (digitsVal fp : ℚ) / (10 : ℚ) ^ fp.length))], []) := by
  obtain ⟨c0, ip', rfl⟩ : ∃ c0 ip', ip = c0 :: ip' := by
    cases ip with
    | nil => exact absurd rfl hip
    | cons a b => exact ⟨a, b, rfl⟩
  have hd0 : c0.isDigit = true := hipd c0 (List.mem_cons_self c0 ip')
  have hws0 : isJsonWS c0 = false := digit_not_jsonWS c0 hd0
  have hq0 : c0 ≠ '"' := digit_ne c0 '"' hd0 (by decide)
  have hlb0 : c0 ≠ lbrace := digit_ne c0 lbrace hd0 (by decide)
  have hbr0 : c0 ≠ '[' := digit_ne c0 '[' hd0 (by decide)
  have ht0 : c0 ≠ 't' := digit_ne c0 't' hd0 (by decide)
  have hf0 : c0 ≠ 'f' := digit_ne c0 'f' hd0 (by decide)
  have hn0 : c0 ≠ 'n' := digit_ne c0 'n' hd0 (by decide)
  have hws1 : decide (c0 = ' ') = false := decide_eq_false (digit_ne c0 ' ' hd0 (by decide))
  have hws2 : decide (c0 = '\t') = false := decide_eq_false (digit_ne c0 '\t' hd0 (by decide))
  have hws3 : decide (c0 = '\n') = false := decide_eq_false (digit_ne c0 '\n' hd0 (by decide))
  have hws4 : decide (c0 = '\r') = false := decide_eq_false (digit_ne c0 '\r' hd0 (by decide))
  have hnum := numScan_decimal (c0 :: ip') fp hip hipd hfp hfpd
  simp only [docBody, List.cons_append, List.append_assoc] at hnum ⊢
  simp +decide [parseVal, parseMembers, strScan_quote, strScan_literal, Except.map,
    skipJsonWS, isJsonWS, hS, hR, hY, hnum, strMk_data, dictSet, hws0, hws1, hws2, hws3,
    hws4, hq0, hlb0, hbr0, ht0, hf0, hn0, hd0, List.dropWhile]

theorem renderResultWith_data (S R Y : String) (q : ℚ) (ip fp : List Char) :
    (renderResultWith ⟨S, R, Y, q⟩ ⟨ip ++ '.' :: fp⟩).data =
      lbrace :: docBody (jsonEscape S).data (jsonEscape R).data (jsonEscape Y).data ip fp
        ++ [rbrace] := by
  simp [renderResultWith, docBody, sLB, sRB, strData_append, String.singleton, String.push]

theorem docBody_clean (sD rD yD ip fp : List Char)
    (hSb : ∀ c ∈ sD, c ≠ lbrace ∧ c ≠ rbrace)
    (hRb : ∀ c ∈ rD, c ≠ lbrace ∧ c ≠ rbrace)
    (hYb : ∀ c ∈ yD, c ≠ lbrace ∧ c ≠ rbrace)
    (hipb : ∀ c ∈ ip, c ≠ lbrace ∧ c ≠ rbrace)
    (hfpb : ∀ c ∈ fp, c ≠ lbrace ∧ c ≠ rbrace) :
    ∀ c ∈ docBody sD rD yD ip fp, c ≠ lbrace ∧ c ≠ rbrace := by
  simp only [docBody, List.forall_mem_cons, List.forall_mem_append]
  repeat' apply And.intro
  all_goals first
    | decide
    | exact hSb
    | exact hRb
    | exact hYb
    | exact hipb
    | exact hfpb

theorem parseJsonDoc_template (sD rD yD : List Char) (S R Y : String) (ip fp : List Char)
    (hS : ∀ rest, strScan (sD ++ '"' :: rest) = .ok (S.data, rest))
    (hR : ∀ rest, strScan (rD ++ '"' :: rest) = .ok (R.data, rest))
    (hY : ∀ rest, strScan (yD ++ '"' :: rest) = .ok (Y.data, rest))
    (hip : ip ≠ []) (hipd : ∀ c ∈ ip, c.isDigit = true)
    (hfp : fp ≠ []) (hfpd : ∀ c ∈ fp, c.isDigit = true) :
    parseJsonDoc ⟨lbrace :: docBody sD rD yD ip fp ++ [rbrace]⟩ =
      .ok (.obj [("compliance_status", .str S), ("reason", .str R), ("risk_level", .str Y),
        ("confidence_score",
         .num ((digitsVal ip : ℚ) + (digitsVal fp : ℚ) / (10 : ℚ) ^ fp.length))]) := by
  obtain ⟨m, hm⟩ : ∃ m, (lbrace :: docBody sD rD yD ip fp ++ [rbrace]).length + 1 = m + 6 := by
    refine ⟨(lbrace :: docBody sD rD yD ip fp ++ [rbrace]).length - 5, ?_⟩
    simp [docBody]
  unfold parseJsonDoc
  have hskip : skipJsonWS (lbrace :: docBody sD rD yD ip fp ++ [rbrace]) =
      lbrace :: docBody sD rD yD ip fp ++ [rbrace] := by
    simp +decide [skipJsonWS, List.dropWhile, isJsonWS, lbrace]
  rw [show (String.mk (lbrace :: docBody sD rD yD ip fp ++ [rbrace])).data =
      lbrace :: docBody sD rD yD ip fp ++ [rbrace] from rfl]
  rw [hm, hskip, parseVal_template m sD rD yD S R Y ip fp hS hR hY hip hipd hfp hfpd]
  simp [skipJsonWS]

theorem processObj_roundtrip (S R Y : String) (q : ℚ)
    (hS : S ∈ canonicalStatuses) (hY : Y ∈ canonicalRisks)
    (hR5 : 5 ≤ R.length) (hRtrim : pyStrip R = R) (hRnw : hasNonWS R = true)
    (hq0 : (0 : ℚ) ≤ q) (hq1 : q ≤ 1) :
    processObj [("compliance_status", .str S), ("reason", .str R),
      ("risk_level", .str Y), ("confidence_score", .num q)] = .ok ⟨S, R, Y, q⟩ := by
  have h5' : ¬ R.length < 5 := by omega
  have hqa : ¬ q < 0 := not_lt.mpr hq0
  have hqb : ¬ 1 < q := not_lt.mpr hq1
  simp only [canonicalStatuses] at hS
  simp only [canonicalRisks] at hY
  fin_cases hS <;> fin_cases hY <;>
    simp +decide [processObj, normalizeRaw, normalizeReason, normalizeStatus, normalizeRisk,
      pydValidate, requiredField, validateStatus, validateRisk, validateReason, validateScore,
      dictGet, dictSet, hRtrim, hRnw, h5', hqa, hqb, Except.bind, Bind.bind,
      canonicalStatuses, canonicalRisks]

/-- C9 amended: normalization *is* idempotent on a canonical result provided
its reason is already whitespace-trimmed and contains no brace characters
(the brace-blind candidate regex mis-extracts around an unbalanced brace),
its status and risk are canonical, and its score is a finite decimal in
[0, 1]: extracting the result's `json.dumps` serialization returns the
identical object, so a second normalization pass yields the same object
again.  Quotes, backslashes and control characters in the reason are fine —
`json.dumps` escapes them and `json.loads` undoes the escaping.  Without the
already-trimmed condition the round-trip fails (see the counterexample). -/
theorem normalize_roundtrip_trimmed (S R Y : String) (ip fp : List Char) (q : ℚ)
    (hS : S ∈ canonicalStatuses) (hY : Y ∈ canonicalRisks)
    (hR5 : 5 ≤ R.length) (hRtrim : pyStrip R = R)
    (hRbrace : ∀ c ∈ R.data, c ≠ lbrace ∧ c ≠ rbrace)
    (hip : ip ≠ []) (hipd : ∀ c ∈ ip, c.isDigit = true)
    (hfp : fp ≠ []) (hfpd : ∀ c ∈ fp, c.isDigit = true)
    (hq : q = (digitsVal ip : ℚ) + (digitsVal fp : ℚ) / (10 : ℚ) ^ fp.length)
    (hq0 : (0 : ℚ) ≤ q) (hq1 : q ≤ 1) :
    extractAndValidateJson (renderResultWith ⟨S, R, Y, q⟩ ⟨ip ++ '.' :: fp⟩) =
      .ok ⟨S, R, Y, q⟩ := by
  have hRnw : hasNonWS R = true := by
    by_contra hcon
    have hall : ∀ c ∈ R.data, isPySpace c = true := by
      unfold hasNonWS at hcon
      simp at hcon
      exact hcon
    have hdrop : R.data.dropWhile isPySpace = [] := by
      rw [List.dropWhile_eq_nil_iff]
      intro c hc
      exact hall c hc
    have hstrip : pyStripChars R.data = [] := by
      unfold pyStripChars
      rw [hdrop]
      rfl
    have hlen : R.length = 0 := by
      have : (pyStrip R).length = 0 := by
        unfold pyStrip
        rw [hstrip]
        rfl
      rwa [hRtrim] at this
    omega
  have hSb : ∀ c ∈ S.data, c ≠ lbrace ∧ c ≠ rbrace := by
    simp only [canonicalStatuses] at hS
    fin_cases hS <;> decide
  have hYb : ∀ c ∈ Y.data, c ≠ lbrace ∧ c ≠ rbrace := by
    simp only [canonicalRisks] at hY
    fin_cases hY <;> decide
  have hipb : ∀ c ∈ ip, c ≠ lbrace ∧ c ≠ rbrace := fun c hc =>
    ⟨digit_ne c lbrace (hipd c hc) (by decide), digit_ne c rbrace (hipd c hc) (by decide)⟩
  have hfpb : ∀ c ∈ fp, c ≠ lbrace ∧ c ≠ rbrace := fun c hc =>
    ⟨digit_ne c lbrace (hfpd c hc) (by decide), digit_ne c rbrace (hfpd c hc) (by decide)⟩
  have hclean := docBody_clean (jsonEscape S).data (jsonEscape R).data (jsonEscape Y).data
    ip fp (jsonEscapeList_ne_brace S.data hSb) (jsonEscapeList_ne_brace R.data hRbrace)
    (jsonEscapeList_ne_brace Y.data hYb) hipb hfpb
  have hcand : findJsonCandidate (renderResultWith ⟨S, R, Y, q⟩ ⟨ip ++ '.' :: fp⟩) =
      some ⟨lbrace ::
        docBody (jsonEscape S).data (jsonEscape R).data (jsonEscape Y).data ip fp
          ++ [rbrace]⟩ := by
    unfold findJsonCandidate
    rw [renderResultWith_data, findCandidateAux_whole _ hclean]
    rfl
  have hscanS : ∀ rest, strScan ((jsonEscape S).data ++ '"' :: rest) = .ok (S.data, rest) := by
    intro rest
    rw [jsonEscape_data]
    exact strScan_jsonEscape S.data rest
  have hscanR : ∀ rest, strScan ((jsonEscape R).data ++ '"' :: rest) = .ok (R.data, rest) := by
    intro rest
    rw [jsonEscape_data]
    exact strScan_jsonEscape R.data rest
  have hscanY : ∀ rest, strScan ((jsonEscape Y).data ++ '"' :: rest) = .ok (Y.data, rest) := by
    intro rest
    rw [jsonEscape_data]
    exact strScan_jsonEscape Y.data rest
  have hparse := parseJsonDoc_template (jsonEscape S).data (jsonEscape R).data
    (jsonEscape Y).data S R Y ip fp hscanS hscanR hscanY hip hipd hfp hfpd
  simp only [extractAndValidateJson, hcand, hparse]
  rw [← hq]
  exact processObj_roundtrip S R Y q hS hY hR5 hRtrim hRnw hq0 hq1

set_option maxRecDepth 8000 in
/-- Witness for C9 at a concrete canonical result whose trimmed reason
contains a double quote and a backslash, round-tripped through the
`json.dumps` escaping. -/
theorem normalize_roundtrip_trimmed_witness :
    "Compliant" ∈ canonicalStatuses ∧ "Low" ∈ canonicalRisks ∧
    5 ≤ ("said \"hi\" via c:\\tmp" : String).length ∧
    pyStrip "said \"hi\" via c:\\tmp" = "said \"hi\" via c:\\tmp" ∧
    (0.9 : ℚ) = ((digitsVal ['0'] : ℚ) + (digitsVal ['9'] : ℚ) / (10 : ℚ) ^ (['9'] : List Char).length) ∧
    extractAndValidateJson
        (renderResultWith ⟨"Compliant", "said \"hi\" via c:\\tmp", "Low", 0.9⟩
          ⟨['0'] ++ '.' :: ['9']⟩) =
      .ok ⟨"Compliant", "said \"hi\" via c:\\tmp", "Low", 0.9⟩ :=
  ⟨by decide, by decide, by decide, by decide, by with_unfolding_all decide,
   normalize_roundtrip_trimmed "Compliant" "said \"hi\" via c:\\tmp" "Low" ['0'] ['9'] 0.9
     (by decide) (by decide) (by decide) (by decide) (by decide)
     (by decide) (by decide) (by decide) (by decide)
     (by with_unfolding_all decide) (by with_unfolding_all decide)
     (by with_unfolding_all decide)⟩
